import Mathlib

/-!
Verification of `book.py` (hut_reservation_bot): a shallow embedding of the
pure logic and control flow of the booking bot, together with theorems
settling the specification claims.  Browser interactions are modelled by
explicit oracles (environment records that report what the live page would
have answered); everything the Python code computes itself is translated
directly.
-/

namespace HutBot

/-! ### String helpers modelling Python string primitives

Python strings are modelled through `String.data : List Char`.  `pyIn`
models Python's `needle in hay` substring test, `pyStrip` models
`str.strip()`, and `lowerStr` models `str.lower()`. -/

def isPrefixChars : List Char → List Char → Bool
  | [], _ => true
  | _ :: _, [] => false
  | a :: as, b :: bs => a == b && isPrefixChars as bs

def containsChars (needle : List Char) : List Char → Bool
  | [] => isPrefixChars needle []
  | c :: t => isPrefixChars needle (c :: t) || containsChars needle t

def pyIn (needle hay : String) : Bool :=
  containsChars needle.data hay.data

def stripChars (l : List Char) : List Char :=
  ((l.dropWhile Char.isWhitespace).reverse.dropWhile Char.isWhitespace).reverse

def pyStrip (s : String) : String :=
  String.mk (stripChars s.data)

def lowerStr (s : String) : String :=
  String.mk (s.data.map Char.toLower)

def charsToNatAux : Nat → List Char → Option Nat
  | acc, [] => some acc
  | acc, c :: t => if c.isDigit then charsToNatAux (acc * 10 + (c.toNat - 48)) t else none

def charsToNat? : List Char → Option Nat
  | [] => none
  | l => charsToNatAux 0 l

def splitOnChar (sep : Char) : List Char → List (List Char)
  | [] => [[]]
  | c :: t =>
    let r := splitOnChar sep t
    if c == sep then [] :: r
    else
      match r with
      | h :: tl => (c :: h) :: tl
      | [] => [[c]]

/-! ### Date handling

`parse_date_ymd` models `datetime.strptime(value, "%Y-%m-%d").date()`
(returning `none` where strptime would raise `ValueError`), and
`format_date_for_ui` models `date_obj.strftime("%d.%m.%Y")` from
`format_date_for_ui` in the source. -/

def parse_date_ymd (s : String) : Option (Nat × Nat × Nat) :=
  match splitOnChar '-' s.data with
  | [ys, ms, ds] =>
    match charsToNat? ys, charsToNat? ms, charsToNat? ds with
    | some y, some m, some d =>
      if 1 ≤ m ∧ m ≤ 12 ∧ 1 ≤ d ∧ d ≤ 31 then some (y, m, d) else none
    | _, _, _ => none
  | _ => none

def pad2 (n : Nat) : String :=
  if n < 10 then "0" ++ toString n else toString n

def pad4 (n : Nat) : String :=
  if n < 10 then "000" ++ toString n
  else if n < 100 then "00" ++ toString n
  else if n < 1000 then "0" ++ toString n
  else toString n

def format_date_for_ui (s : String) : String :=
  match parse_date_ymd s with
  | some (y, m, d) => pad2 d ++ "." ++ pad2 m ++ "." ++ pad4 y
  | none => ""

/-! ### Month-stepper navigation (`ensure_calendar_month`)

The source reads the displayed period label, parses it to `(year, month)`,
and compares it against the target with a Python tuple comparison, clicking
next or previous once per iteration of a `for _ in range(24)` loop; when the
loop ends without the displayed period matching it raises.  The displayed
period is modelled directly as a `(year, month)` pair; a next/previous click
moves the picker one month forward/backward, which is what the claims (and
the material datepicker) stipulate about the page. -/

def periodLt (a b : Nat × Nat) : Bool :=
  a.1 < b.1 || (a.1 == b.1 && a.2 < b.2)

def monthSucc : Nat × Nat → Nat × Nat
  | (y, m) => if m == 12 then (y + 1, 1) else (y, m + 1)

def monthPred : Nat × Nat → Nat × Nat
  | (y, m) => if m == 1 then (y - 1, 12) else (y, m - 1)

inductive NavClick where
  | next
  | prev
deriving DecidableEq

def ensure_calendar_month (target : Nat × Nat) :
    Nat → Nat × Nat → List NavClick × Except String Unit
  | 0, _ => ([], Except.error "Unable to navigate calendar to target month")
  | fuel + 1, cur =>
    if cur = target then ([], Except.ok ())
    else if periodLt cur target then
      let r := ensure_calendar_month target fuel (monthSucc cur)
      (NavClick.next :: r.1, r.2)
    else
      let r := ensure_calendar_month target fuel (monthPred cur)
      (NavClick.prev :: r.1, r.2)

def ensure_calendar_month24 (target cur : Nat × Nat) :
    List NavClick × Except String Unit :=
  ensure_calendar_month target 24 cur

theorem ensure_calendar_month_length (target : Nat × Nat) :
    ∀ fuel cur, (ensure_calendar_month target fuel cur).1.length ≤ fuel := by
  intro fuel
  induction fuel with
  | zero => intro cur; simp [ensure_calendar_month]
  | succ n ih =>
    intro cur
    by_cases h : cur = target
    · simp [ensure_calendar_month, h]
    · by_cases h2 : periodLt cur target = true
      · simp only [ensure_calendar_month, h, if_false, h2, if_true, List.length_cons]
        exact Nat.succ_le_succ (ih (monthSucc cur))
      · simp only [ensure_calendar_month, h, if_false, h2, Bool.false_eq_true, List.length_cons]
        exact Nat.succ_le_succ (ih (monthPred cur))

/-! ### Date-range text verification

`normalize_date_text` strips the value, replaces unicode dashes and the
right single quote, and collapses whitespace runs, as in the source.
`date_range_matches` splits the expected value on its first dash and checks
that both halves occur in the normalized rendered value (Python `in`). -/

def dashFix (c : Char) : Char :=
  if c == Char.ofNat 0x2013 || c == Char.ofNat 0x2014 || c == Char.ofNat 0x2212 then '-'
  else if c == Char.ofNat 0x2019 then Char.ofNat 39
  else c

def collapseWsAux : Bool → List Char → List Char
  | _, [] => []
  | pendingSpace, c :: cs =>
    if c.isWhitespace then collapseWsAux true cs
    else (if pendingSpace then [' ', c] else [c]) ++ collapseWsAux false cs

def normalize_date_text (s : String) : String :=
  String.mk (collapseWsAux false (stripChars (s.data.map dashFix)))

def expected_date_range_value (check_in check_out : String) : String :=
  format_date_for_ui check_in ++ " - " ++ format_date_for_ui check_out

def splitFirstDash : List Char → List Char × Option (List Char)
  | [] => ([], none)
  | c :: cs =>
    if c == '-' then ([], some cs)
    else
      let r := splitFirstDash cs
      (c :: r.1, r.2)

/-- Models `date_range_matches`.  The source unpacks
`expected.split("-", 1)` into two parts; the expected value always contains
a dash (it comes from `expected_date_range_value`), so the dash-free case —
where Python would raise a `ValueError` — is rendered as `false` here. -/
def date_range_matches (value expected : String) : Bool :=
  let normalized := normalize_date_text value
  let expectedN := normalize_date_text expected
  match splitFirstDash expectedN.data with
  | (_, none) => false
  | (l, some r) =>
    let left := String.mk (stripChars l)
    let right := String.mk (stripChars r)
    pyIn left normalized && pyIn right normalized

/-! ### Hut selection (`choose_hut_option`)

`optionsRendered = none` models `page.wait_for_selector` timing out (the
option list never rendered); `some texts` gives the rendered option texts.
`inputValue` is what `hut_input.input_value()` reads back. -/

inductive HutChoice where
  | selected (text : String)
  | tentative (name : String)
deriving DecidableEq

def choose_hut_option (hutName : String) (optionsRendered : Option (List String))
    (inputValue : String) : Except String HutChoice :=
  match optionsRendered with
  | none =>
    if pyStrip inputValue ≠ "" then Except.ok (HutChoice.tentative hutName)
    else Except.error "No hut options available after search"
  | some optionTexts =>
    if optionTexts = [] then
      if pyStrip inputValue ≠ "" then Except.ok (HutChoice.tentative hutName)
      else Except.error "No hut options available after search"
    else
      match optionTexts.filter (fun t => t = hutName) with
      | [t] => Except.ok (HutChoice.selected t)
      | _ =>
        match optionTexts.filter (fun t => pyIn (lowerStr hutName) (lowerStr t)) with
        | [t] => Except.ok (HutChoice.selected t)
        | _ => Except.error "Ambiguous hut selection"

/-! ### Field fill-or-validate (`fill_input_or_validate`, `fill_personal_value`)

`present` models whether the locator exists (`locator is None` for the
first, `find_input_by_labels` returning `None` for the second); `enabled`
models `locator.is_enabled()`; `current` is the value read back from the
disabled field. -/

inductive FieldAction where
  | skipped
  | wrote (v : String)
  | validated
deriving DecidableEq

def fill_input_or_validate (present enabled : Bool) (current value : String) :
    Except String FieldAction :=
  if present = false then Except.ok FieldAction.skipped
  else if enabled then Except.ok (FieldAction.wrote value)
  else if pyIn value (pyStrip current) then Except.ok FieldAction.validated
  else Except.error "Field is disabled and does not match value"

def fill_personal_value (present enabled : Bool) (current : String) (value : Option String) :
    Except String FieldAction :=
  match value with
  | none => Except.ok FieldAction.skipped
  | some v =>
    if present = false then Except.error "Missing personal field"
    else if enabled then Except.ok (FieldAction.wrote v)
    else
      if v ≠ "" ∧ pyIn (lowerStr v) (lowerStr (pyStrip current)) = false then
        Except.error "Field is disabled and does not match config value"
      else Except.ok FieldAction.validated

/-! ### Config loading (`load_config`), polling-related fields

Only the fields the claims are about are modelled: the raw YAML values of
`allow_waitlist` and `auto_poll_if_full` (absent, a boolean, or some other
YAML value), fed through `optional_bool` exactly as in the source. -/

inductive YVal where
  | b (v : Bool)
  | other
deriving DecidableEq

def optional_bool (v : Option YVal) (default : Bool) : Except String Bool :=
  match v with
  | none => Except.ok default
  | some (YVal.b x) => Except.ok x
  | some YVal.other => Except.error "config value must be a boolean"

structure RawConfig where
  allow_waitlist : Option YVal
  auto_poll_if_full : Option YVal

/-- Models the `allow_waitlist` / `auto_poll_if_full` portion of
`load_config`: `allow_waitlist` defaults to `false`; when
`auto_poll_if_full` is present it is read with `optional_bool`
(default `False`), and when absent it is set to `not allow_waitlist`. -/
def load_config_poll_fields (rc : RawConfig) : Except String (Bool × Bool) :=
  match optional_bool rc.allow_waitlist false with
  | Except.error e => Except.error e
  | Except.ok allowWaitlist =>
    match rc.auto_poll_if_full with
    | some _ =>
      match optional_bool rc.auto_poll_if_full false with
      | Except.error e => Except.error e
      | Except.ok v => Except.ok (allowWaitlist, v)
    | none => Except.ok (allowWaitlist, !allowWaitlist)

/-! ### One wizard attempt (`run_attempt`, `select_date_range`,
`ensure_expected_date_range`)

The browser is abstracted by `AttemptEnv`: each field reports what the live
page answers at the corresponding interaction point of the source.  Stages
whose internals no claim inspects (login/list/hut, party size inputs, the
availability waitlist chain, overnight, personal data, consent) are
summarised by the kind of outcome that region of the source can produce —
success, a raised `AvailabilityNotFoundError`, or a raised `RuntimeError`.
`run_attempt` returns the trace of user-visible actions together with the
terminal outcome or propagated error. -/

inductive BErr where
  | avail (msg : String)
  | fatal (msg : String)
deriving DecidableEq

inductive AttemptOutcome where
  | completed
  | awaitingConfirmation
  | dryRunStopped
deriving DecidableEq

inductive AttemptEv where
  | calClick (c : NavClick)
  | dayClick (ui : String)
  | partySizeStep
  | availabilityStep
  | overnightStep
  | personalStep
  | consentStep
  | submitClick
deriving DecidableEq

/-- Outcome of the availability chain, source lines 1124-1171 of
`run_attempt` (next/continue buttons, waitlist enabling): it either
advances to the overnight step, raises `AvailabilityNotFoundError`,
or raises a `RuntimeError` from a failed element lookup. -/
inductive AvailChain where
  | advanced
  | availFail (msg : String)
  | fatalFail (msg : String)
deriving DecidableEq

structure Args where
  poll : Bool
  dry_run : Bool
  confirm_submit : Bool
  interval_seconds : Int
  jitter_seconds : Int
  max_attempts : Int
deriving DecidableEq

structure Config where
  hut_name : String
  check_in : String
  check_out : String
  allow_alternative_dates : Bool
  allow_waitlist : Bool
  auto_poll_if_full : Bool
  poll_interval_seconds : Int
  poll_jitter_seconds : Int
  poll_max_attempts : Int
deriving DecidableEq

structure AttemptEnv where
  /-- login / reservation list / hut selection / wizard wait, lines 1084-1113:
  `some msg` is a raised `RuntimeError`. -/
  preErr : Option String
  /-- date-picker toggle and calendar opening, lines 437-456. -/
  pickerErr : Option String
  /-- displayed `(year, month)` when the calendar opens. -/
  calendarStart : Nat × Nat
  /-- whether the day cell for a UI-formatted date is found (`must_locator`). -/
  cellFound : String → Bool
  /-- whether the found day cell carries `aria-disabled="true"`. -/
  dateDisabled : String → Bool
  /-- whether `find_date_range_input` finds the range input. -/
  rangeInputFound : Bool
  /-- the value the date-range input holds at its n-th read. -/
  rangeReads : Nat → String
  /-- `set_party_size_inputs`, lines 1119-1120: `some msg` is a raised error. -/
  partySizeErr : Option String
  /-- the availability chain, lines 1124-1171. -/
  availChain : AvailChain
  /-- overnight details, lines 1174-1193. -/
  overnightErr : Option String
  /-- personal data, lines 1195-1208. -/
  personalErr : Option String
  /-- consent checkboxes, lines 1210-1215. -/
  consentErr : Option String
  /-- whether `find_summary_submit_button` finds a candidate. -/
  submitFound : Bool
  /-- whether the found submit button is disabled. -/
  submitDisabled : Bool

/-- The per-date loop of `select_date_range` (lines 457-465): navigate the
calendar to the date's month, locate the day cell, raise
`AvailabilityNotFoundError` if it is `aria-disabled`, else click it.  The
calendar position is threaded between the two dates. -/
def selectDates (env : AttemptEnv) : List String → Nat × Nat →
    List AttemptEv × Option BErr
  | [], _ => ([], none)
  | d :: rest, cal =>
    match parse_date_ymd d with
    | none => ([], some (BErr.fatal ("time data does not match format: " ++ d)))
    | some (y, m, _day) =>
      let nav := ensure_calendar_month (y, m) 24 cal
      let clickEvs := nav.1.map AttemptEv.calClick
      match nav.2 with
      | Except.error e => (clickEvs, some (BErr.fatal e))
      | Except.ok _ =>
        let ui := format_date_for_ui d
        if env.cellFound ui = false then
          (clickEvs, some (BErr.fatal ("Missing or hidden element for date_" ++ ui)))
        else if env.dateDisabled ui then
          (clickEvs, some (BErr.avail ("Date not available: " ++ ui)))
        else
          let r := selectDates env rest (y, m)
          (clickEvs ++ AttemptEv.dayClick ui :: r.1, r.2)

def select_date_range (env : AttemptEnv) (check_in check_out : String) :
    List AttemptEv × Option BErr :=
  match env.pickerErr with
  | some e => ([], some (BErr.fatal e))
  | none => selectDates env [check_in, check_out] env.calendarStart

/-- Models `ensure_expected_date_range` (lines 600-617).  `rd` counts reads
of the date-range input so far; the returned `Nat` is the updated count. -/
def ensure_expected_date_range (env : AttemptEnv) (check_in check_out : String)
    (allow_alternative_dates : Bool) (rd : Nat) :
    List AttemptEv × Nat × Option BErr :=
  if env.rangeInputFound = false then
    ([], rd, some (BErr.fatal "Date range input not found on availability step"))
  else
    let expected := expected_date_range_value check_in check_out
    let current := env.rangeReads rd
    if date_range_matches current expected then ([], rd + 1, none)
    else if allow_alternative_dates then ([], rd + 1, none)
    else
      let r := select_date_range env check_in check_out
      match r.2 with
      | some err => (r.1, rd + 1, some err)
      | none =>
        let current2 := env.rangeReads (rd + 1)
        if date_range_matches current2 expected then (r.1, rd + 2, none)
        else (r.1, rd + 2, some (BErr.fatal "Date range changed unexpectedly"))

/-- The tail of `run_attempt` after the consent checkboxes (lines
1218-1240): the dry-run early return, the submit-button lookup, the
disabled check, and the `--confirm-submit` gate guarding the click. -/
def finalSubmitStage (args : Args) (env : AttemptEnv) :
    List AttemptEv × Except BErr AttemptOutcome :=
  if args.dry_run then ([], Except.ok AttemptOutcome.dryRunStopped)
  else if env.submitFound = false then
    ([], Except.error (BErr.fatal "Summary submit button not found"))
  else if env.submitDisabled then
    ([], Except.error (BErr.fatal "Summary step incomplete; submit button disabled."))
  else if args.confirm_submit = false then
    ([], Except.ok AttemptOutcome.awaitingConfirmation)
  else ([AttemptEv.submitClick], Except.ok AttemptOutcome.completed)

def attemptBody (config : Config) (env : AttemptEnv) :
    List AttemptEv × Option BErr :=
  match env.preErr with
  | some e => ([], some (BErr.fatal e))
  | none =>
    let r1 := select_date_range env config.check_in config.check_out
    match r1.2 with
    | some err => (r1.1, some err)
    | none =>
      let r2 := ensure_expected_date_range env config.check_in config.check_out
        config.allow_alternative_dates 0
      match r2.2.2 with
      | some err => (r1.1 ++ r2.1, some err)
      | none =>
        match env.partySizeErr with
        | some e => (r1.1 ++ r2.1, some (BErr.fatal e))
        | none =>
          let t1 := r1.1 ++ r2.1 ++ [AttemptEv.partySizeStep]
          let r3 := ensure_expected_date_range env config.check_in config.check_out
            config.allow_alternative_dates r2.2.1
          match r3.2.2 with
          | some err => (t1 ++ r3.1, some err)
          | none =>
            match env.availChain with
            | AvailChain.availFail m => (t1 ++ r3.1, some (BErr.avail m))
            | AvailChain.fatalFail m => (t1 ++ r3.1, some (BErr.fatal m))
            | AvailChain.advanced =>
              let t2 := t1 ++ r3.1 ++ [AttemptEv.availabilityStep]
              match env.overnightErr with
              | some e => (t2, some (BErr.fatal e))
              | none =>
                let t3 := t2 ++ [AttemptEv.overnightStep]
                match env.personalErr with
                | some e => (t3, some (BErr.fatal e))
                | none =>
                  let t4 := t3 ++ [AttemptEv.personalStep]
                  match env.consentErr with
                  | some e => (t4, some (BErr.fatal e))
                  | none => (t4 ++ [AttemptEv.consentStep], none)

def run_attempt (config : Config) (args : Args) (env : AttemptEnv) :
    List AttemptEv × Except BErr AttemptOutcome :=
  let b := attemptBody config env
  match b.2 with
  | some err => (b.1, Except.error err)
  | none =>
    let fin := finalSubmitStage args env
    (b.1 ++ fin.1, fin.2)

/-! ### Retry scheduler and multi-request coordinator (`main`)

`AttemptResult` abstracts the outcome of one `run_attempt` call as the
schedulers see it: normal return, a raised `AvailabilityNotFoundError`, or
any other raised exception.  `draw n` models `random.randint(0,
jitter_seconds)` at the n-th sleep decision (inclusive of both bounds).
`Ev.attemptEv i k` records a `run_attempt(configs[i], ..., attempt_index=k)`
call; `Ev.sleepEv t` records a `time.sleep(t)`. -/

inductive AttemptResult where
  | success
  | availabilityNotFound (msg : String)
  | fatal (msg : String)
deriving DecidableEq

inductive Ev where
  | attemptEv (cfgIdx attemptNo : Nat)
  | sleepEv (t : Int)
deriving DecidableEq

inductive RunRes where
  | completed
  | availabilityRaised (msg : String)
  | fatalRaised (msg : String)
  | outOfFuel
deriving DecidableEq

/-- The single-config polling loop of `main` (lines 1295-1307).  `prev` is
the attempt counter before the iteration; exhaustion re-raises the caught
`AvailabilityNotFoundError` (surfacing as `availabilityRaised`).  The
`while True` loop is rendered with explicit fuel; claims only concern runs
that terminate within the supplied fuel. -/
def singlePoll (outcome : Nat → AttemptResult) (interval jitter maxAttempts : Int)
    (draw : Nat → Int) : Nat → Nat → List Ev × RunRes
  | 0, _ => ([], RunRes.outOfFuel)
  | fuel + 1, prev =>
    let attempt := prev + 1
    match outcome attempt with
    | AttemptResult.success => ([Ev.attemptEv 0 attempt], RunRes.completed)
    | AttemptResult.fatal msg => ([Ev.attemptEv 0 attempt], RunRes.fatalRaised msg)
    | AttemptResult.availabilityNotFound msg =>
      if maxAttempts ≠ 0 ∧ (attempt : Int) ≥ maxAttempts then
        ([Ev.attemptEv 0 attempt], RunRes.availabilityRaised msg)
      else
        let w := interval + (if jitter ≠ 0 then draw attempt else 0)
        let r := singlePoll outcome interval jitter maxAttempts draw fuel attempt
        (Ev.attemptEv 0 attempt :: Ev.sleepEv w :: r.1, r.2)

inductive CyAbort where
  | availRaise (msg : String)
  | fatalRaise (msg : String)
deriving DecidableEq

structure CycleOut where
  evs : List Ev
  pending : List Nat
  counts : Nat → Nat
  abort : Option CyAbort

/-- One coordinator cycle (the `for idx in list(pending)` body, lines
1336-1345): the snapshot of `pending` is walked in order; each request's
per-request counter is bumped and one attempt run; on success the request
is removed from `pending`; on `AvailabilityNotFoundError` the *cycle*
counter is compared against the shared `max_attempts` and the exception
re-raised when the ceiling is reached; any other exception propagates at
once. -/
def runCycleAux (outcome : Nat → Nat → AttemptResult) (maxAttempts : Int) (cycle : Nat) :
    List Nat → List Nat → (Nat → Nat) → CycleOut
  | [], pending, counts => ⟨[], pending, counts, none⟩
  | idx :: rest, pending, counts =>
    let k := counts idx + 1
    let counts' := fun j => if j = idx then k else counts j
    match outcome idx k with
    | AttemptResult.success =>
      let r := runCycleAux outcome maxAttempts cycle rest (pending.erase idx) counts'
      ⟨Ev.attemptEv idx k :: r.evs, r.pending, r.counts, r.abort⟩
    | AttemptResult.availabilityNotFound msg =>
      if maxAttempts ≠ 0 ∧ (cycle : Int) ≥ maxAttempts then
        ⟨[Ev.attemptEv idx k], pending, counts', some (CyAbort.availRaise msg)⟩
      else
        let r := runCycleAux outcome maxAttempts cycle rest pending counts'
        ⟨Ev.attemptEv idx k :: r.evs, r.pending, r.counts, r.abort⟩
    | AttemptResult.fatal msg =>
      ⟨[Ev.attemptEv idx k], pending, counts', some (CyAbort.fatalRaise msg)⟩

/-- The coordinator `while pending:` loop (lines 1333-1350): bump the cycle
counter, run one cycle over the snapshot of `pending`, propagate any raise,
return when `pending` empties, else sleep once (shared interval + jitter)
and continue. -/
def coordLoop (outcome : Nat → Nat → AttemptResult) (interval jitter maxAttempts : Int)
    (draw : Nat → Int) : Nat → Nat → List Nat → (Nat → Nat) → List Ev × RunRes
  | 0, _, pending, _ =>
    if pending.isEmpty then ([], RunRes.completed) else ([], RunRes.outOfFuel)
  | fuel + 1, cycle, pending, counts =>
    if pending.isEmpty then ([], RunRes.completed)
    else
      let r := runCycleAux outcome maxAttempts (cycle + 1) pending pending counts
      match r.abort with
      | some (CyAbort.availRaise msg) => (r.evs, RunRes.availabilityRaised msg)
      | some (CyAbort.fatalRaise msg) => (r.evs, RunRes.fatalRaised msg)
      | none =>
        if r.pending.isEmpty then (r.evs, RunRes.completed)
        else
          let w := interval + (if jitter ≠ 0 then draw (cycle + 1) else 0)
          let rec2 := coordLoop outcome interval jitter maxAttempts draw fuel
            (cycle + 1) r.pending r.counts
          (r.evs ++ Ev.sleepEv w :: rec2.1, rec2.2)

/-! ### Poll-settings resolution and `main` -/

def pollFlags (configs : List Config) (args : Args) : List Bool :=
  configs.map (fun c => args.poll || c.auto_poll_if_full)

def polledConfigs (configs : List Config) (flags : List Bool) : List Config :=
  ((configs.zip flags).filter (fun p => p.2)).map (fun p => p.1)

/-- Models `resolve_poll_settings` (lines 1251-1263).  With `--poll` the
CLI-wide settings are returned without any consistency check; otherwise
the distinct values of each per-config poll field over the polled configs
are collected (Python set comprehensions, modelled by `List.dedup`) and a
`ValueError` is raised unless each collection is a singleton. -/
def resolve_poll_settings (configs : List Config) (flags : List Bool) (args : Args) :
    Except String (Option (Int × Int × Int)) :=
  if args.poll then
    Except.ok (some (args.interval_seconds, args.jitter_seconds, args.max_attempts))
  else
    let polled := polledConfigs configs flags
    let intervals := (polled.map (fun c => c.poll_interval_seconds)).dedup
    let jitters := (polled.map (fun c => c.poll_jitter_seconds)).dedup
    let maxs := (polled.map (fun c => c.poll_max_attempts)).dedup
    if intervals = [] then Except.ok none
    else if 1 < intervals.length ∨ 1 < jitters.length ∨ 1 < maxs.length then
      Except.error "Multiple configs with polling require matching poll settings or pass poll with global settings."
    else
      match intervals, jitters, maxs with
      | [i], [j], [m] => Except.ok (some (i, j, m))
      | _, _, _ => Except.ok none

inductive MainRes where
  | ok
  | configError (msg : String)
  | failed (r : RunRes)
deriving DecidableEq

/-- The setup walk of the multi-config poll path (lines 1325-1331): polled
configs are queued in `pending`, non-polled ones are run once immediately,
any exception from those immediate runs propagating unguarded. -/
def coordSetup (outcome : Nat → Nat → AttemptResult) :
    Nat → List Bool → List Ev × List Nat × Option RunRes
  | _, [] => ([], [], none)
  | idx, flag :: rest =>
    if flag then
      let r := coordSetup outcome (idx + 1) rest
      (r.1, idx :: r.2.1, r.2.2)
    else
      match outcome idx 1 with
      | AttemptResult.success =>
        let r := coordSetup outcome (idx + 1) rest
        (Ev.attemptEv idx 1 :: r.1, r.2.1, r.2.2)
      | AttemptResult.availabilityNotFound msg =>
        ([Ev.attemptEv idx 1], [], some (RunRes.availabilityRaised msg))
      | AttemptResult.fatal msg =>
        ([Ev.attemptEv idx 1], [], some (RunRes.fatalRaised msg))

/-- The non-poll multi-config path (lines 1312-1315): run each config once
in input order, stopping at the first exception. -/
def runSequential (outcome : Nat → Nat → AttemptResult) : List Nat → List Ev × MainRes
  | [] => ([], MainRes.ok)
  | idx :: rest =>
    match outcome idx 1 with
    | AttemptResult.success =>
      let r := runSequential outcome rest
      (Ev.attemptEv idx 1 :: r.1, r.2)
    | AttemptResult.availabilityNotFound msg =>
      ([Ev.attemptEv idx 1], MainRes.failed (RunRes.availabilityRaised msg))
    | AttemptResult.fatal msg =>
      ([Ev.attemptEv idx 1], MainRes.failed (RunRes.fatalRaised msg))

def ofRunRes : RunRes → MainRes
  | RunRes.completed => MainRes.ok
  | r => MainRes.failed r

/-- Models `main` (lines 1266-1350) after config and credential loading:
poll flags are computed, `resolve_poll_settings` runs (raising before any
attempt), then the single-config path (with or without polling) or the
multi-config path (sequential or coordinated) executes. -/
def mainRun (configs : List Config) (args : Args) (outcome : Nat → Nat → AttemptResult)
    (draw : Nat → Int) (fuel : Nat) : List Ev × MainRes :=
  match resolve_poll_settings configs (pollFlags configs args) args with
  | Except.error e => ([], MainRes.configError e)
  | Except.ok settings =>
    match configs with
    | [_] =>
      match settings with
      | some (i, j, m) =>
        if i ≤ 0 then ([], MainRes.configError "interval_seconds must be > 0")
        else if j < 0 then ([], MainRes.configError "jitter_seconds must be >= 0")
        else if m < 0 then ([], MainRes.configError "max_attempts must be >= 0")
        else
          let r := singlePoll (fun n => outcome 0 n) i j m draw fuel 0
          (r.1, ofRunRes r.2)
      | none =>
        match outcome 0 1 with
        | AttemptResult.success => ([Ev.attemptEv 0 1], MainRes.ok)
        | AttemptResult.availabilityNotFound msg =>
          ([Ev.attemptEv 0 1], MainRes.failed (RunRes.availabilityRaised msg))
        | AttemptResult.fatal msg =>
          ([Ev.attemptEv 0 1], MainRes.failed (RunRes.fatalRaised msg))
    | _ =>
      match settings with
      | none => runSequential outcome (List.range configs.length)
      | some (i, j, m) =>
        if i ≤ 0 then ([], MainRes.configError "interval_seconds must be > 0")
        else if j < 0 then ([], MainRes.configError "jitter_seconds must be >= 0")
        else if m < 0 then ([], MainRes.configError "max_attempts must be >= 0")
        else
          let setup := coordSetup outcome 0 (pollFlags configs args)
          match setup.2.2 with
          | some r => (setup.1, MainRes.failed r)
          | none =>
            let r := coordLoop outcome i j m draw fuel 0 setup.2.1 (fun _ => 0)
            (setup.1 ++ r.1, ofRunRes r.2)

/-! ### General list lemmas -/

theorem getLast?_cons_of_ne_nil {α : Type} (a : α) {l : List α} (h : l ≠ []) :
    (a :: l).getLast? = l.getLast? := by
  cases l with
  | nil => exact absurd rfl h
  | cons b t => rfl

theorem getLast?_append_right {α : Type} (l1 : List α) {l2 : List α} (h : l2 ≠ []) :
    (l1 ++ l2).getLast? = l2.getLast? := by
  induction l1 with
  | nil => rfl
  | cons a t ih =>
    rw [List.cons_append, getLast?_cons_of_ne_nil a ?hne, ih]
    case hne =>
      intro he
      rcases List.append_eq_nil.mp he with ⟨_, h2⟩
      exact h h2

theorem one_lt_length_of_two_mem {α : Type} {l : List α} {a b : α}
    (ha : a ∈ l) (hb : b ∈ l) (hne : a ≠ b) : 1 < l.length := by
  match l with
  | [] => simp at ha
  | [x] =>
    simp at ha hb
    exact absurd (ha.trans hb.symm) hne
  | x :: y :: t => simp [Nat.lt_add_of_pos_left]

/-! ### Fatal errors abort the retry layers immediately -/

theorem singlePoll_fatal (outcome : Nat → AttemptResult) (i j m : Int) (draw : Nat → Int)
    (n : Nat) (msg : String) (hout : outcome n = AttemptResult.fatal msg) :
    ∀ fuel prev, Ev.attemptEv 0 n ∈ (singlePoll outcome i j m draw fuel prev).1 →
      (singlePoll outcome i j m draw fuel prev).2 = RunRes.fatalRaised msg ∧
      (singlePoll outcome i j m draw fuel prev).1.getLast? = some (Ev.attemptEv 0 n) := by
  intro fuel
  induction fuel with
  | zero => intro prev hmem; simp [singlePoll] at hmem
  | succ f ih =>
    intro prev hmem
    rcases hres : outcome (prev + 1) with _ | m1 | m2
    · simp only [singlePoll, hres, List.mem_singleton] at hmem ⊢
      injection hmem with h1 h2
      rw [h2, hres] at hout
      exact absurd hout (by simp)
    · by_cases hc : m ≠ 0 ∧ ((prev + 1 : Nat) : Int) ≥ m
      · simp only [singlePoll, hres, if_pos hc, List.mem_singleton] at hmem ⊢
        injection hmem with h1 h2
        rw [h2, hres] at hout
        exact absurd hout (by simp)
      · simp only [singlePoll, hres, if_neg hc, List.mem_cons] at hmem ⊢
        rcases hmem with heq | heq | hin
        · injection heq with h1 h2
          rw [h2, hres] at hout
          exact absurd hout (by simp)
        · exact absurd heq (by simp)
        · have hrec := ih (prev + 1) hin
          refine ⟨hrec.1, ?_⟩
          have hne2 : (singlePoll outcome i j m draw f (prev + 1)).1 ≠ [] :=
            List.ne_nil_of_mem hin
          rw [getLast?_cons_of_ne_nil _ (List.cons_ne_nil _ _),
            getLast?_cons_of_ne_nil _ hne2, hrec.2]
    · simp only [singlePoll, hres, List.mem_singleton] at hmem ⊢
      injection hmem with h1 h2
      rw [h2, hres] at hout
      injection hout with h3
      simp [h2, h3]

theorem runCycleAux_fatal (outcome : Nat → Nat → AttemptResult) (m : Int)
    (cycle idx k : Nat) (msg : String)
    (hout : outcome idx k = AttemptResult.fatal msg) :
    ∀ snap pending counts,
      Ev.attemptEv idx k ∈ (runCycleAux outcome m cycle snap pending counts).evs →
      (runCycleAux outcome m cycle snap pending counts).abort
          = some (CyAbort.fatalRaise msg) ∧
      (runCycleAux outcome m cycle snap pending counts).evs.getLast?
          = some (Ev.attemptEv idx k) := by
  intro snap
  induction snap with
  | nil => intro pending counts h; simp [runCycleAux] at h
  | cons j rest ih =>
    intro pending counts hmem
    rcases hres : outcome j (counts j + 1) with _ | m1 | m2
    · simp only [runCycleAux, hres, List.mem_cons] at hmem ⊢
      rcases hmem with heq | hin
      · injection heq with h1 h2
        rw [h1, h2, hres] at hout
        exact absurd hout (by simp)
      · have hrec := ih (pending.erase j) _ hin
        refine ⟨hrec.1, ?_⟩
        rw [getLast?_cons_of_ne_nil _ (List.ne_nil_of_mem hin), hrec.2]
    · by_cases hc : m ≠ 0 ∧ ((cycle : Nat) : Int) ≥ m
      · simp only [runCycleAux, hres, if_pos hc, List.mem_singleton] at hmem ⊢
        injection hmem with h1 h2
        rw [h1, h2, hres] at hout
        exact absurd hout (by simp)
      · simp only [runCycleAux, hres, if_neg hc, List.mem_cons] at hmem ⊢
        rcases hmem with heq | hin
        · injection heq with h1 h2
          rw [h1, h2, hres] at hout
          exact absurd hout (by simp)
        · have hrec := ih pending _ hin
          refine ⟨hrec.1, ?_⟩
          rw [getLast?_cons_of_ne_nil _ (List.ne_nil_of_mem hin), hrec.2]
    · simp only [runCycleAux, hres, List.mem_singleton] at hmem ⊢
      injection hmem with h1 h2
      rw [h1, h2, hres] at hout
      injection hout with h3
      simp [h1, h2, h3]

theorem coordLoop_fatal (outcome : Nat → Nat → AttemptResult) (i j m : Int)
    (draw : Nat → Int) (idx k : Nat) (msg : String)
    (hout : outcome idx k = AttemptResult.fatal msg) :
    ∀ fuel cycle pending counts,
      Ev.attemptEv idx k ∈ (coordLoop outcome i j m draw fuel cycle pending counts).1 →
      (coordLoop outcome i j m draw fuel cycle pending counts).2
          = RunRes.fatalRaised msg ∧
      (coordLoop outcome i j m draw fuel cycle pending counts).1.getLast?
          = some (Ev.attemptEv idx k) := by
  intro fuel
  induction fuel with
  | zero =>
    intro cycle pending counts h
    by_cases hp : pending.isEmpty <;> simp [coordLoop, hp] at h
  | succ f ih =>
    intro cycle pending counts hmem
    by_cases hp : pending.isEmpty
    · simp [coordLoop, hp] at hmem
    · rcases hab : (runCycleAux outcome m (cycle + 1) pending pending counts).abort
        with _ | ab
      · by_cases hp2 : (runCycleAux outcome m (cycle + 1) pending pending counts).pending.isEmpty
        · simp only [coordLoop, hp, Bool.false_eq_true, if_false, hab, hp2, if_true] at hmem ⊢
          have := (runCycleAux_fatal outcome m (cycle + 1) idx k msg hout
            pending pending counts hmem).1
          rw [hab] at this
          exact absurd this (by simp)
        · simp only [coordLoop, hp, Bool.false_eq_true, if_false, hab, hp2] at hmem ⊢
          rcases List.mem_append.mp hmem with hin | hin
          · have := (runCycleAux_fatal outcome m (cycle + 1) idx k msg hout
              pending pending counts hin).1
            rw [hab] at this
            exact absurd this (by simp)
          · rcases List.mem_cons.mp hin with heq | hin2
            · exact absurd heq (by simp)
            · have hrec := ih (cycle + 1) _ _ hin2
              refine ⟨hrec.1, ?_⟩
              rw [getLast?_append_right _ (List.cons_ne_nil _ _),
                getLast?_cons_of_ne_nil _ (List.ne_nil_of_mem hin2), hrec.2]
      · rcases ab with m1 | m2
        · simp only [coordLoop, hp, Bool.false_eq_true, if_false, hab] at hmem ⊢
          have := (runCycleAux_fatal outcome m (cycle + 1) idx k msg hout
            pending pending counts hmem).1
          rw [hab] at this
          exact absurd this (by simp)
        · simp only [coordLoop, hp, Bool.false_eq_true, if_false, hab] at hmem ⊢
          have hcy := runCycleAux_fatal outcome m (cycle + 1) idx k msg hout
            pending pending counts hmem
          rw [hab] at hcy
          refine ⟨?_, hcy.2⟩
          injection hcy.1 with h1
          injection h1 with h2
          rw [h2]

/-! ### Coordinator cycle invariants -/

theorem runCycleAux_evs_of_no_abort (outcome : Nat → Nat → AttemptResult) (m : Int)
    (cycle : Nat) :
    ∀ snap pending counts, snap.Nodup →
      (runCycleAux outcome m cycle snap pending counts).abort = none →
      (runCycleAux outcome m cycle snap pending counts).evs
        = snap.map (fun i => Ev.attemptEv i (counts i + 1)) := by
  intro snap
  induction snap with
  | nil => intro pending counts _ _; simp [runCycleAux]
  | cons j rest ih =>
    intro pending counts hnd hab
    have hnd' := List.nodup_cons.mp hnd
    rcases hres : outcome j (counts j + 1) with _ | m1 | m2
    · simp only [runCycleAux, hres] at hab ⊢
      rw [ih _ _ hnd'.2 hab]
      simp only [List.map_cons, List.cons.injEq, true_and]
      apply List.map_congr_left
      intro a ha
      have hne : a ≠ j := fun h => hnd'.1 (h ▸ ha)
      simp [hne]
    · by_cases hc : m ≠ 0 ∧ ((cycle : Nat) : Int) ≥ m
      · simp only [runCycleAux, hres, if_pos hc] at hab
        exact absurd hab (by simp)
      · simp only [runCycleAux, hres, if_neg hc] at hab ⊢
        rw [ih _ _ hnd'.2 hab]
        simp only [List.map_cons, List.cons.injEq, true_and]
        apply List.map_congr_left
        intro a ha
        have hne : a ≠ j := fun h => hnd'.1 (h ▸ ha)
        simp [hne]
    · simp only [runCycleAux, hres] at hab
      exact absurd hab (by simp)

theorem runCycleAux_pending_subset (outcome : Nat → Nat → AttemptResult) (m : Int)
    (cycle : Nat) :
    ∀ snap pending counts,
      (runCycleAux outcome m cycle snap pending counts).pending ⊆ pending := by
  intro snap
  induction snap with
  | nil => intro pending counts; simp [runCycleAux]
  | cons j rest ih =>
    intro pending counts
    rcases hres : outcome j (counts j + 1) with _ | m1 | m2
    · simp only [runCycleAux, hres]
      exact (ih _ _).trans (List.erase_subset ..)
    · by_cases hc : m ≠ 0 ∧ ((cycle : Nat) : Int) ≥ m
      · simp [runCycleAux, hres, if_pos hc, List.Subset.refl]
      · simp only [runCycleAux, hres, if_neg hc]
        exact ih _ _
    · simp [runCycleAux, hres, List.Subset.refl]

theorem runCycleAux_success_removed (outcome : Nat → Nat → AttemptResult) (m : Int)
    (cycle idx : Nat) :
    ∀ snap pending counts, snap.Nodup → pending.Nodup → idx ∈ snap →
      outcome idx (counts idx + 1) = AttemptResult.success →
      (runCycleAux outcome m cycle snap pending counts).abort = none →
      idx ∉ (runCycleAux outcome m cycle snap pending counts).pending := by
  intro snap
  induction snap with
  | nil => intro pending counts _ _ h; simp at h
  | cons j rest ih =>
    intro pending counts hnd hpnd hmem hout hab
    have hnd' := List.nodup_cons.mp hnd
    by_cases hji : j = idx
    · subst hji
      rcases hres : outcome j (counts j + 1) with _ | m1 | m2
      · simp only [runCycleAux, hres] at hab ⊢
        intro hin
        exact hpnd.not_mem_erase
          (runCycleAux_pending_subset outcome m cycle rest (pending.erase j) _ hin)
      · exact absurd hout (by simp [hres])
      · exact absurd hout (by simp [hres])
    · have hmem' : idx ∈ rest := by
        rcases List.mem_cons.mp hmem with h | h
        · exact absurd h.symm hji
        · exact h
      have hij : idx ≠ j := fun h => hji h.symm
      have hcnt : (fun j' => if j' = j then counts j + 1 else counts j') idx + 1
          = counts idx + 1 := by
        simp [hij]
      rcases hres : outcome j (counts j + 1) with _ | m1 | m2
      · simp only [runCycleAux, hres] at hab ⊢
        exact ih (pending.erase j) _ hnd'.2 (hpnd.erase j) hmem'
          (by rw [hcnt]; exact hout) hab
      · by_cases hc : m ≠ 0 ∧ ((cycle : Nat) : Int) ≥ m
        · simp only [runCycleAux, hres, if_pos hc] at hab
          exact absurd hab (by simp)
        · simp only [runCycleAux, hres, if_neg hc] at hab ⊢
          exact ih pending _ hnd'.2 hpnd hmem' (by rw [hcnt]; exact hout) hab
      · simp only [runCycleAux, hres] at hab
        exact absurd hab (by simp)

theorem runCycleAux_attempt_mem_snap (outcome : Nat → Nat → AttemptResult) (m : Int)
    (cycle a b : Nat) :
    ∀ snap pending counts,
      Ev.attemptEv a b ∈ (runCycleAux outcome m cycle snap pending counts).evs →
      a ∈ snap := by
  intro snap
  induction snap with
  | nil => intro pending counts h; simp [runCycleAux] at h
  | cons j rest ih =>
    intro pending counts hmem
    rcases hres : outcome j (counts j + 1) with _ | m1 | m2
    · simp only [runCycleAux, hres, List.mem_cons] at hmem
      rcases hmem with heq | hin
      · injection heq with h1 _
        simp [h1]
      · exact List.mem_cons_of_mem _ (ih _ _ hin)
    · by_cases hc : m ≠ 0 ∧ ((cycle : Nat) : Int) ≥ m
      · simp only [runCycleAux, hres, if_pos hc, List.mem_singleton] at hmem
        injection hmem with h1 _
        simp [h1]
      · simp only [runCycleAux, hres, if_neg hc, List.mem_cons] at hmem
        rcases hmem with heq | hin
        · injection heq with h1 _
          simp [h1]
        · exact List.mem_cons_of_mem _ (ih _ _ hin)
    · simp only [runCycleAux, hres, List.mem_singleton] at hmem
      injection hmem with h1 _
      simp [h1]

theorem coordLoop_no_attempt_of_not_pending (outcome : Nat → Nat → AttemptResult)
    (i j m : Int) (draw : Nat → Int) (a b : Nat) :
    ∀ fuel cycle pending counts, a ∉ pending →
      Ev.attemptEv a b ∉ (coordLoop outcome i j m draw fuel cycle pending counts).1 := by
  intro fuel
  induction fuel with
  | zero =>
    intro cycle pending counts hnp h
    by_cases hp : pending.isEmpty <;> simp [coordLoop, hp] at h
  | succ f ih =>
    intro cycle pending counts hnp hmem
    by_cases hp : pending.isEmpty
    · simp [coordLoop, hp] at hmem
    · rcases hab : (runCycleAux outcome m (cycle + 1) pending pending counts).abort
        with _ | ab
      · by_cases hp2 : (runCycleAux outcome m (cycle + 1) pending pending counts).pending.isEmpty
        · simp only [coordLoop, hp, Bool.false_eq_true, if_false, hab, hp2, if_true] at hmem
          exact hnp (runCycleAux_attempt_mem_snap outcome m (cycle + 1) a b
            pending pending counts hmem)
        · simp only [coordLoop, hp, Bool.false_eq_true, if_false, hab, hp2] at hmem
          rcases List.mem_append.mp hmem with hin | hin
          · exact hnp (runCycleAux_attempt_mem_snap outcome m (cycle + 1) a b
              pending pending counts hin)
          · rcases List.mem_cons.mp hin with heq | hin2
            · exact absurd heq (by simp)
            · have hnp2 : a ∉ (runCycleAux outcome m (cycle + 1) pending pending counts).pending :=
                fun h => hnp (runCycleAux_pending_subset outcome m (cycle + 1)
                  pending pending counts h)
              exact ih (cycle + 1) _ _ hnp2 hin2
      · rcases ab with m1 | m2 <;>
          simp only [coordLoop, hp, Bool.false_eq_true, if_false, hab] at hmem <;>
          exact hnp (runCycleAux_attempt_mem_snap outcome m (cycle + 1) a b
            pending pending counts hmem)

theorem runCycleAux_exhaust_needs_cycle (outcome : Nat → Nat → AttemptResult) (m : Int)
    (cycle : Nat) (msg : String) :
    ∀ snap pending counts,
      (runCycleAux outcome m cycle snap pending counts).abort
          = some (CyAbort.availRaise msg) →
      m ≠ 0 ∧ ((cycle : Nat) : Int) ≥ m := by
  intro snap
  induction snap with
  | nil => intro pending counts h; simp [runCycleAux] at h
  | cons j rest ih =>
    intro pending counts hab
    rcases hres : outcome j (counts j + 1) with _ | m1 | m2
    · simp only [runCycleAux, hres] at hab
      exact ih _ _ hab
    · by_cases hc : m ≠ 0 ∧ ((cycle : Nat) : Int) ≥ m
      · exact hc
      · simp only [runCycleAux, hres, if_neg hc] at hab
        exact ih _ _ hab
    · simp only [runCycleAux, hres] at hab
      exact absurd hab (by simp)

/-- Unfolding equation for a coordinator cycle that ends in its shared
sleep: all the cycle's attempt events come first, then exactly one
`sleepEv`, then the rest of the run. -/
theorem coordLoop_cycle_then_sleep (outcome : Nat → Nat → AttemptResult)
    (i j m : Int) (draw : Nat → Int) (fuel cycle : Nat) (pending : List Nat)
    (counts : Nat → Nat) (hp : pending ≠ [])
    (hab : (runCycleAux outcome m (cycle + 1) pending pending counts).abort = none)
    (hp2 : (runCycleAux outcome m (cycle + 1) pending pending counts).pending ≠ []) :
    coordLoop outcome i j m draw (fuel + 1) cycle pending counts
      = ((runCycleAux outcome m (cycle + 1) pending pending counts).evs
          ++ Ev.sleepEv (i + if j ≠ 0 then draw (cycle + 1) else 0)
            :: (coordLoop outcome i j m draw fuel (cycle + 1)
                (runCycleAux outcome m (cycle + 1) pending pending counts).pending
                (runCycleAux outcome m (cycle + 1) pending pending counts).counts).1,
         (coordLoop outcome i j m draw fuel (cycle + 1)
            (runCycleAux outcome m (cycle + 1) pending pending counts).pending
            (runCycleAux outcome m (cycle + 1) pending pending counts).counts).2) := by
  have hpb : pending.isEmpty = false := by
    cases pending with
    | nil => exact absurd rfl hp
    | cons x t => rfl
  have hpb2 : (runCycleAux outcome m (cycle + 1) pending pending counts).pending.isEmpty
      = false := by
    rcases h : (runCycleAux outcome m (cycle + 1) pending pending counts).pending with _ | ⟨x, t⟩
    · exact absurd h hp2
    · rfl
  simp only [coordLoop, hpb, Bool.false_eq_true, if_false, hab, hpb2]

/-! ### Shape of the traces produced by date selection -/

theorem selectDates_events_shape (env : AttemptEnv) :
    ∀ ds cal ev, ev ∈ (selectDates env ds cal).1 →
      (∃ c, ev = AttemptEv.calClick c) ∨ ∃ s, ev = AttemptEv.dayClick s := by
  intro ds
  induction ds with
  | nil => intro cal ev h; simp [selectDates] at h
  | cons d rest ih =>
    intro cal ev hmem
    rcases hp : parse_date_ymd d with _ | ⟨y, m, dd⟩
    · simp [selectDates, hp] at hmem
    · rcases hnav : (ensure_calendar_month (y, m) 24 cal).2 with e | u
      · simp only [selectDates, hp, hnav] at hmem
        rcases List.mem_map.mp hmem with ⟨c, _, hc⟩
        exact Or.inl ⟨c, hc.symm⟩
      · by_cases hcf : env.cellFound (format_date_for_ui d) = false
        · simp only [selectDates, hp, hnav, hcf, if_true] at hmem
          rcases List.mem_map.mp hmem with ⟨c, _, hc⟩
          exact Or.inl ⟨c, hc.symm⟩
        · by_cases hdd : env.dateDisabled (format_date_for_ui d)
          · simp only [selectDates, hp, hnav, hcf, if_false, hdd, if_true] at hmem
            rcases List.mem_map.mp hmem with ⟨c, _, hc⟩
            exact Or.inl ⟨c, hc.symm⟩
          · simp only [selectDates, hp, hnav, hcf, if_false, hdd] at hmem
            rcases List.mem_append.mp hmem with hin | hin
            · rcases List.mem_map.mp hin with ⟨c, _, hc⟩
              exact Or.inl ⟨c, hc.symm⟩
            · rcases List.mem_cons.mp hin with heq | hin2
              · exact Or.inr ⟨format_date_for_ui d, heq⟩
              · exact ih (y, m) ev hin2

theorem select_date_range_events_shape (env : AttemptEnv) (ci co : String) (ev : AttemptEv)
    (h : ev ∈ (select_date_range env ci co).1) :
    (∃ c, ev = AttemptEv.calClick c) ∨ ∃ s, ev = AttemptEv.dayClick s := by
  rcases hpk : env.pickerErr with _ | e2
  · rw [select_date_range, hpk] at h
    exact selectDates_events_shape env [ci, co] env.calendarStart ev h
  · rw [select_date_range, hpk] at h
    simp at h

theorem ensure_expected_date_range_events_shape (env : AttemptEnv) (ci co : String)
    (alt : Bool) (rd : Nat) (ev : AttemptEv)
    (h : ev ∈ (ensure_expected_date_range env ci co alt rd).1) :
    (∃ c, ev = AttemptEv.calClick c) ∨ ∃ s, ev = AttemptEv.dayClick s := by
  by_cases hrf : env.rangeInputFound = false
  · rw [ensure_expected_date_range, if_pos hrf] at h
    simp at h
  · rw [ensure_expected_date_range, if_neg hrf] at h
    by_cases h1 : date_range_matches (env.rangeReads rd) (expected_date_range_value ci co)
    · rw [if_pos h1] at h; simp at h
    · rw [if_neg h1] at h
      by_cases h2 : alt
      · rw [if_pos h2] at h; simp at h
      · rw [if_neg h2] at h
        rcases hsel : (select_date_range env ci co).2 with _ | err
        · simp only [hsel] at h
          by_cases h3 : date_range_matches (env.rangeReads (rd + 1))
              (expected_date_range_value ci co)
          · rw [if_pos h3] at h
            exact select_date_range_events_shape env ci co ev h
          · rw [if_neg h3] at h
            exact select_date_range_events_shape env ci co ev h
        · simp only [hsel] at h
          exact select_date_range_events_shape env ci co ev h

theorem steps_not_in_select (env : AttemptEnv) (ci co : String) :
    AttemptEv.submitClick ∉ (select_date_range env ci co).1
  ∧ AttemptEv.consentStep ∉ (select_date_range env ci co).1
  ∧ AttemptEv.partySizeStep ∉ (select_date_range env ci co).1 := by
  refine ⟨fun h => ?_, fun h => ?_, fun h => ?_⟩ <;>
    rcases select_date_range_events_shape env ci co _ h with ⟨c, hc⟩ | ⟨s, hs⟩ <;>
    simp_all

theorem steps_not_in_ensure (env : AttemptEnv) (ci co : String) (alt : Bool) (rd : Nat) :
    AttemptEv.submitClick ∉ (ensure_expected_date_range env ci co alt rd).1
  ∧ AttemptEv.consentStep ∉ (ensure_expected_date_range env ci co alt rd).1
  ∧ AttemptEv.partySizeStep ∉ (ensure_expected_date_range env ci co alt rd).1 := by
  refine ⟨fun h => ?_, fun h => ?_, fun h => ?_⟩ <;>
    rcases ensure_expected_date_range_events_shape env ci co alt rd _ h with ⟨c, hc⟩ | ⟨s, hs⟩ <;>
    simp_all

theorem select_date_range_disabled (env : AttemptEnv) (ci co : String)
    (hpk : env.pickerErr = none) (y m d : Nat) (hp : parse_date_ymd ci = some (y, m, d))
    (hnav : (ensure_calendar_month (y, m) 24 env.calendarStart).2 = Except.ok ())
    (hcf : env.cellFound (format_date_for_ui ci) = true)
    (hdd : env.dateDisabled (format_date_for_ui ci) = true) :
    (select_date_range env ci co).2
      = some (BErr.avail ("Date not available: " ++ format_date_for_ui ci)) := by
  rw [select_date_range, hpk]
  simp only [selectDates, hp, hnav, hcf, hdd]
  simp

theorem attemptBody_cases (config : Config) (env : AttemptEnv) :
    AttemptEv.submitClick ∉ (attemptBody config env).1
  ∧ (AttemptEv.consentStep ∈ (attemptBody config env).1 →
      (attemptBody config env).2 = none) := by
  have hA1 := (steps_not_in_select env config.check_in config.check_out).1
  have hA2 := (steps_not_in_select env config.check_in config.check_out).2.1
  have hB1 := (steps_not_in_ensure env config.check_in config.check_out
    config.allow_alternative_dates 0).1
  have hB2 := (steps_not_in_ensure env config.check_in config.check_out
    config.allow_alternative_dates 0).2.1
  have hC1 := (steps_not_in_ensure env config.check_in config.check_out
    config.allow_alternative_dates
    ((ensure_expected_date_range env config.check_in config.check_out
      config.allow_alternative_dates 0).2.1)).1
  have hC2 := (steps_not_in_ensure env config.check_in config.check_out
    config.allow_alternative_dates
    ((ensure_expected_date_range env config.check_in config.check_out
      config.allow_alternative_dates 0).2.1)).2.1
  rcases hb : attemptBody config env with ⟨tr, res⟩
  simp only [attemptBody] at hb
  rcases hpre : env.preErr with _ | e <;> simp only [hpre] at hb
  case some =>
    cases hb
    simp
  rcases hs1 : (select_date_range env config.check_in config.check_out).2 with _ | err <;>
    simp only [hs1] at hb
  case some =>
    cases hb
    exact ⟨hA1, fun hmem => absurd hmem hA2⟩
  rcases he1 : (ensure_expected_date_range env config.check_in config.check_out
      config.allow_alternative_dates 0).2.2 with _ | err <;>
    simp only [he1] at hb
  case some =>
    cases hb
    refine ⟨fun hmem => ?_, fun hmem => ?_⟩ <;> rcases List.mem_append.mp hmem with h2 | h2
    · exact hA1 h2
    · exact hB1 h2
    · exact absurd h2 hA2
    · exact absurd h2 hB2
  rcases hps : env.partySizeErr with _ | e <;> simp only [hps] at hb
  case some =>
    cases hb
    refine ⟨fun hmem => ?_, fun hmem => ?_⟩ <;> rcases List.mem_append.mp hmem with h2 | h2
    · exact hA1 h2
    · exact hB1 h2
    · exact absurd h2 hA2
    · exact absurd h2 hB2
  rcases he2 : (ensure_expected_date_range env config.check_in config.check_out
      config.allow_alternative_dates
      ((ensure_expected_date_range env config.check_in config.check_out
        config.allow_alternative_dates 0).2.1)).2.2 with _ | err <;>
    simp only [he2] at hb
  case some =>
    cases hb
    refine ⟨fun hmem => ?_, fun hmem => ?_⟩ <;>
      simp only [List.mem_append, List.mem_singleton] at hmem <;>
      rcases hmem with ((h2 | h2) | h2) | h2
    · exact hA1 h2
    · exact hB1 h2
    · exact absurd h2 (by simp)
    · exact hC1 h2
    · exact absurd h2 hA2
    · exact absurd h2 hB2
    · exact absurd h2 (by simp)
    · exact absurd h2 hC2
  rcases hav : env.availChain with _ | m1 | m2 <;> simp only [hav] at hb
  case availFail =>
    cases hb
    refine ⟨fun hmem => ?_, fun hmem => ?_⟩ <;>
      simp only [List.mem_append, List.mem_singleton] at hmem <;>
      rcases hmem with ((h2 | h2) | h2) | h2
    · exact hA1 h2
    · exact hB1 h2
    · exact absurd h2 (by simp)
    · exact hC1 h2
    · exact absurd h2 hA2
    · exact absurd h2 hB2
    · exact absurd h2 (by simp)
    · exact absurd h2 hC2
  case fatalFail =>
    cases hb
    refine ⟨fun hmem => ?_, fun hmem => ?_⟩ <;>
      simp only [List.mem_append, List.mem_singleton] at hmem <;>
      rcases hmem with ((h2 | h2) | h2) | h2
    · exact hA1 h2
    · exact hB1 h2
    · exact absurd h2 (by simp)
    · exact hC1 h2
    · exact absurd h2 hA2
    · exact absurd h2 hB2
    · exact absurd h2 (by simp)
    · exact absurd h2 hC2
  rcases hov : env.overnightErr with _ | e <;> simp only [hov] at hb
  case some =>
    cases hb
    refine ⟨fun hmem => ?_, fun hmem => ?_⟩ <;>
      simp only [List.mem_append, List.mem_singleton] at hmem <;>
      rcases hmem with (((h2 | h2) | h2) | h2) | h2
    · exact hA1 h2
    · exact hB1 h2
    · exact absurd h2 (by simp)
    · exact hC1 h2
    · exact absurd h2 (by simp)
    · exact absurd h2 hA2
    · exact absurd h2 hB2
    · exact absurd h2 (by simp)
    · exact absurd h2 hC2
    · exact absurd h2 (by simp)
  rcases hpr : env.personalErr with _ | e <;> simp only [hpr] at hb
  case some =>
    cases hb
    refine ⟨fun hmem => ?_, fun hmem => ?_⟩ <;>
      simp only [List.mem_append, List.mem_singleton] at hmem <;>
      rcases hmem with ((((h2 | h2) | h2) | h2) | h2) | h2
    · exact hA1 h2
    · exact hB1 h2
    · exact absurd h2 (by simp)
    · exact hC1 h2
    · exact absurd h2 (by simp)
    · exact absurd h2 (by simp)
    · exact absurd h2 hA2
    · exact absurd h2 hB2
    · exact absurd h2 (by simp)
    · exact absurd h2 hC2
    · exact absurd h2 (by simp)
    · exact absurd h2 (by simp)
  rcases hco : env.consentErr with _ | e <;> simp only [hco] at hb
  case some =>
    cases hb
    refine ⟨fun hmem => ?_, fun hmem => ?_⟩ <;>
      simp only [List.mem_append, List.mem_singleton] at hmem <;>
      rcases hmem with (((((h2 | h2) | h2) | h2) | h2) | h2) | h2
    · exact hA1 h2
    · exact hB1 h2
    · exact absurd h2 (by simp)
    · exact hC1 h2
    · exact absurd h2 (by simp)
    · exact absurd h2 (by simp)
    · exact absurd h2 (by simp)
    · exact absurd h2 hA2
    · exact absurd h2 hB2
    · exact absurd h2 (by simp)
    · exact absurd h2 hC2
    · exact absurd h2 (by simp)
    · exact absurd h2 (by simp)
    · exact absurd h2 (by simp)
  cases hb
  refine ⟨fun hmem => ?_, fun _ => rfl⟩
  simp only [List.mem_append, List.mem_singleton] at hmem
  rcases hmem with (((((((h2 | h2) | h2) | h2) | h2) | h2) | h2) | h2)
  · exact hA1 h2
  · exact hB1 h2
  · exact absurd h2 (by simp)
  · exact hC1 h2
  · exact absurd h2 (by simp)
  · exact absurd h2 (by simp)
  · exact absurd h2 (by simp)
  · exact absurd h2 (by simp)

/-- C5: for every run of an attempt the final submit control is never
clicked unless the explicit confirm-submit flag is set and dry-run is off;
with dry-run the attempt stops right after the consent checkboxes with the
dry-run outcome, and without confirm-submit the submit control is never
clicked (the attempt stops at the gate). -/
theorem run_attempt_submit_gate (config : Config) (args : Args) (env : AttemptEnv) :
    (AttemptEv.submitClick ∈ (run_attempt config args env).1 →
      args.confirm_submit = true ∧ args.dry_run = false)
  ∧ (args.dry_run = true → AttemptEv.consentStep ∈ (run_attempt config args env).1 →
      (run_attempt config args env).2 = Except.ok AttemptOutcome.dryRunStopped)
  ∧ (args.confirm_submit = false →
      AttemptEv.submitClick ∉ (run_attempt config args env).1) := by
  have hbc := attemptBody_cases config env
  rcases hb2 : (attemptBody config env).2 with _ | err
  case some =>
    simp only [run_attempt, hb2]
    refine ⟨fun h => absurd h hbc.1, fun _ h => ?_, fun _ => hbc.1⟩
    have hn := hbc.2 h
    rw [hb2] at hn
    exact absurd hn (by simp)
  case none =>
    refine ⟨?_, ?_, ?_⟩
    · intro h
      simp only [run_attempt, hb2] at h
      rcases List.mem_append.mp h with h2 | h2
      · exact absurd h2 hbc.1
      · by_cases hdry : args.dry_run
        · simp [finalSubmitStage, hdry] at h2
        · by_cases hsf : env.submitFound = false
          · simp [finalSubmitStage, hdry, hsf] at h2
          · by_cases hsd : env.submitDisabled
            · simp [finalSubmitStage, hdry, hsf, hsd] at h2
            · by_cases hcf : args.confirm_submit = false
              · simp [finalSubmitStage, hdry, hsf, hsd, hcf] at h2
              · exact ⟨by simpa using hcf, by simpa using hdry⟩
    · intro hdry _
      simp only [run_attempt, hb2]
      simp [finalSubmitStage, hdry]
    · intro hcf h
      simp only [run_attempt, hb2] at h
      rcases List.mem_append.mp h with h2 | h2
      · exact absurd h2 hbc.1
      · by_cases hdry : args.dry_run
        · simp [finalSubmitStage, hdry] at h2
        · by_cases hsf : env.submitFound = false
          · simp [finalSubmitStage, hdry, hsf] at h2
          · by_cases hsd : env.submitDisabled
            · simp [finalSubmitStage, hdry, hsf, hsd] at h2
            · simp [finalSubmitStage, hdry, hsf, hsd, hcf] at h2

theorem select_date_range_disabled_second (env : AttemptEnv) (ci co : String)
    (hpk : env.pickerErr = none)
    (y1 m1 d1 : Nat) (hp1 : parse_date_ymd ci = some (y1, m1, d1))
    (hnav1 : (ensure_calendar_month (y1, m1) 24 env.calendarStart).2 = Except.ok ())
    (hcf1 : env.cellFound (format_date_for_ui ci) = true)
    (hdd1 : env.dateDisabled (format_date_for_ui ci) = false)
    (y2 m2 d2 : Nat) (hp2 : parse_date_ymd co = some (y2, m2, d2))
    (hnav2 : (ensure_calendar_month (y2, m2) 24 (y1, m1)).2 = Except.ok ())
    (hcf2 : env.cellFound (format_date_for_ui co) = true)
    (hdd2 : env.dateDisabled (format_date_for_ui co) = true) :
    (select_date_range env ci co).2
      = some (BErr.avail ("Date not available: " ++ format_date_for_ui co)) := by
  rw [select_date_range, hpk]
  simp only [selectDates, hp1, hnav1, hcf1, hdd1, hp2, hnav2, hcf2, hdd2]
  simp

/-- C3: during date-range selection, a day cell carrying
`aria-disabled="true"` for a requested date makes the attempt raise
`AvailabilityNotFoundError` immediately (an availability error, not a
not-found error) — for the check-in date as for the check-out date — and
in particular with a disabled check-in cell the attempt fails before the
party-size step is ever executed. -/
theorem run_attempt_disabled_date_cell (config : Config) (args : Args) (env : AttemptEnv)
    (hpre : env.preErr = none) (hpk : env.pickerErr = none) :
    (∀ y m d, parse_date_ymd config.check_in = some (y, m, d) →
      (ensure_calendar_month (y, m) 24 env.calendarStart).2 = Except.ok () →
      env.cellFound (format_date_for_ui config.check_in) = true →
      env.dateDisabled (format_date_for_ui config.check_in) = true →
      (run_attempt config args env).2
        = Except.error (BErr.avail ("Date not available: "
            ++ format_date_for_ui config.check_in))
      ∧ AttemptEv.partySizeStep ∉ (run_attempt config args env).1)
  ∧ (∀ y1 m1 d1 y2 m2 d2, parse_date_ymd config.check_in = some (y1, m1, d1) →
      (ensure_calendar_month (y1, m1) 24 env.calendarStart).2 = Except.ok () →
      env.cellFound (format_date_for_ui config.check_in) = true →
      env.dateDisabled (format_date_for_ui config.check_in) = false →
      parse_date_ymd config.check_out = some (y2, m2, d2) →
      (ensure_calendar_month (y2, m2) 24 (y1, m1)).2 = Except.ok () →
      env.cellFound (format_date_for_ui config.check_out) = true →
      env.dateDisabled (format_date_for_ui config.check_out) = true →
      (run_attempt config args env).2
        = Except.error (BErr.avail ("Date not available: "
            ++ format_date_for_ui config.check_out))
      ∧ AttemptEv.partySizeStep ∉ (run_attempt config args env).1) := by
  constructor
  · intro y m d hp hnav hcf hdd
    have hsel := select_date_range_disabled env config.check_in config.check_out hpk
      y m d hp hnav hcf hdd
    have hb : attemptBody config env
        = ((select_date_range env config.check_in config.check_out).1,
           some (BErr.avail ("Date not available: "
             ++ format_date_for_ui config.check_in))) := by
      simp only [attemptBody, hpre, hsel]
    refine ⟨?_, ?_⟩
    · simp only [run_attempt, hb]
    · simp only [run_attempt, hb]
      exact (steps_not_in_select env config.check_in config.check_out).2.2
  · intro y1 m1 d1 y2 m2 d2 hp1 hnav1 hcf1 hdd1 hp2 hnav2 hcf2 hdd2
    have hsel := select_date_range_disabled_second env config.check_in config.check_out
      hpk y1 m1 d1 hp1 hnav1 hcf1 hdd1 y2 m2 d2 hp2 hnav2 hcf2 hdd2
    have hb : attemptBody config env
        = ((select_date_range env config.check_in config.check_out).1,
           some (BErr.avail ("Date not available: "
             ++ format_date_for_ui config.check_out))) := by
      simp only [attemptBody, hpre, hsel]
    refine ⟨?_, ?_⟩
    · simp only [run_attempt, hb]
    · simp only [run_attempt, hb]
      exact (steps_not_in_select env config.check_in config.check_out).2.2


/-! ## Claim theorems -/

/-- C4: month-stepper navigation compares the parsed displayed
`(year, month)` against the target and steps one month per iteration in
the needed direction: from `(2026, 1)` to `(2026, 4)` it issues exactly 3
next clicks and terminates, from `(2026, 6)` to `(2025, 12)` exactly 6
previous clicks; the loop is bounded to 24 iterations, after which it
fails (illustrated by a 48-month-away target) rather than looping
forever. -/
theorem claim_month_stepper_navigation :
    ensure_calendar_month24 (2026, 4) (2026, 1)
      = ([NavClick.next, NavClick.next, NavClick.next], Except.ok ())
  ∧ ensure_calendar_month24 (2025, 12) (2026, 6)
      = ([NavClick.prev, NavClick.prev, NavClick.prev, NavClick.prev, NavClick.prev,
          NavClick.prev], Except.ok ())
  ∧ (ensure_calendar_month24 (2030, 1) (2026, 1)).2
      = Except.error "Unable to navigate calendar to target month"
  ∧ ∀ t c, (ensure_calendar_month24 t c).1.length ≤ 24 :=
  ⟨rfl, rfl, rfl, fun t c => ensure_calendar_month_length t 24 c⟩

/-- C1 counterexample: the claim bounds every sleep strictly below 330
seconds, but `random.randint(0, jitter)` is inclusive of `jitter`: with a
jitter draw of 30 every sleep of the run lasts exactly 330 seconds. -/
theorem claim_scheduler_sleep_bound_counterexample :
    ¬ (∀ t : Int, Ev.sleepEv t ∈ (singlePoll
          (fun _ => AttemptResult.availabilityNotFound "full") 300 30 3
          (fun _ => 30) 3 0).1 → 300 ≤ t ∧ t < 330) := by
  intro h
  have he : singlePoll (fun _ => AttemptResult.availabilityNotFound "full") 300 30 3
      (fun _ => 30) 3 0
      = ([Ev.attemptEv 0 1, Ev.sleepEv 330, Ev.attemptEv 0 2, Ev.sleepEv 330,
          Ev.attemptEv 0 3], RunRes.availabilityRaised "full") := rfl
  have hm : Ev.sleepEv 330 ∈ (singlePoll
      (fun _ => AttemptResult.availabilityNotFound "full") 300 30 3
      (fun _ => 30) 3 0).1 := by
    rw [he]
    simp
  have := (h 330 hm).2
  omega

/-- C1 (amended): with `interval=300, jitter=30, max_attempts=3` and every
attempt raising `AvailabilityNotFoundError`, the polling loop performs
exactly 3 attempts and exactly 2 sleeps — none after the final attempt —
each sleep lasting `300 + randint(0, 30)` seconds, i.e. within the closed
interval `[300, 330]`, and the third failure propagates out of the
scheduler as the re-raised availability error rather than being
swallowed. -/
theorem claim_scheduler_three_attempts_two_sleeps (msg : String) (draw : Nat → Int)
    (hdraw : ∀ n, 0 ≤ draw n ∧ draw n ≤ 30) (fuel : Nat) (hfuel : 3 ≤ fuel) :
    singlePoll (fun _ => AttemptResult.availabilityNotFound msg) 300 30 3 draw fuel 0
      = ([Ev.attemptEv 0 1, Ev.sleepEv (300 + draw 1), Ev.attemptEv 0 2,
          Ev.sleepEv (300 + draw 2), Ev.attemptEv 0 3], RunRes.availabilityRaised msg)
  ∧ ∀ t, Ev.sleepEv t ∈ (singlePoll (fun _ => AttemptResult.availabilityNotFound msg)
        300 30 3 draw fuel 0).1 → 300 ≤ t ∧ t ≤ 330 := by
  obtain ⟨k, rfl⟩ : ∃ k, fuel = k + 3 := ⟨fuel - 3, by omega⟩
  have key : singlePoll (fun _ => AttemptResult.availabilityNotFound msg) 300 30 3 draw
      (k + 3) 0
      = ([Ev.attemptEv 0 1, Ev.sleepEv (300 + draw 1), Ev.attemptEv 0 2,
          Ev.sleepEv (300 + draw 2), Ev.attemptEv 0 3], RunRes.availabilityRaised msg) := by
    simp only [singlePoll]
    norm_num
  refine ⟨key, fun t ht => ?_⟩
  rw [key] at ht
  simp only [List.mem_cons, List.not_mem_nil, or_false] at ht
  have h1 := hdraw 1
  have h2 := hdraw 2
  rcases ht with h | h | h | h | h <;> first
    | (injection h with hv; omega)
    | exact absurd h (by simp)

theorem claim_scheduler_three_attempts_two_sleeps_witness :
    (∀ _n : Nat, 0 ≤ (7 : Int) ∧ (7 : Int) ≤ 30) ∧ (3 : Nat) ≤ 3 ∧
    (singlePoll (fun _ => AttemptResult.availabilityNotFound "full") 300 30 3
        (fun _ => 7) 3 0
      = ([Ev.attemptEv 0 1, Ev.sleepEv 307, Ev.attemptEv 0 2, Ev.sleepEv 307,
          Ev.attemptEv 0 3], RunRes.availabilityRaised "full")
    ∧ ∀ t, Ev.sleepEv t ∈ (singlePoll
          (fun _ => AttemptResult.availabilityNotFound "full") 300 30 3
          (fun _ => 7) 3 0).1 → 300 ≤ t ∧ t ≤ 330) :=
  ⟨fun _ => by norm_num, le_refl 3,
    claim_scheduler_three_attempts_two_sleeps "full" (fun _ => 7)
      (fun _ => by norm_num) 3 (le_refl 3)⟩

/-- C2: the retry layers catch and retry only `AvailabilityNotFoundError`.
In the single-request polling loop and in the multi-request coordinator
alike, an attempt raising any other exception ends the whole run at that
very attempt: the exception propagates as the run's result, the offending
attempt is the last event of the trace (so no sleep follows it), and no
further attempt of any request is made. -/
theorem claim_only_availability_is_retried :
    (∀ (outcome : Nat → AttemptResult) (i j m : Int) (draw : Nat → Int)
        (fuel prev n : Nat) (msg : String),
      outcome n = AttemptResult.fatal msg →
      Ev.attemptEv 0 n ∈ (singlePoll outcome i j m draw fuel prev).1 →
      (singlePoll outcome i j m draw fuel prev).2 = RunRes.fatalRaised msg ∧
      (singlePoll outcome i j m draw fuel prev).1.getLast? = some (Ev.attemptEv 0 n))
  ∧ (∀ (outcome : Nat → Nat → AttemptResult) (i j m : Int) (draw : Nat → Int)
        (fuel cycle : Nat) (pending : List Nat) (counts : Nat → Nat) (idx k : Nat)
        (msg : String),
      outcome idx k = AttemptResult.fatal msg →
      Ev.attemptEv idx k ∈ (coordLoop outcome i j m draw fuel cycle pending counts).1 →
      (coordLoop outcome i j m draw fuel cycle pending counts).2
          = RunRes.fatalRaised msg ∧
      (coordLoop outcome i j m draw fuel cycle pending counts).1.getLast?
          = some (Ev.attemptEv idx k)) :=
  ⟨fun outcome i j m draw fuel prev n msg hout hmem =>
      singlePoll_fatal outcome i j m draw n msg hout fuel prev hmem,
   fun outcome i j m draw fuel cycle pending counts idx k msg hout hmem =>
      coordLoop_fatal outcome i j m draw idx k msg hout fuel cycle pending counts hmem⟩

theorem claim_only_availability_is_retried_witness :
    ((fun _ : Nat => AttemptResult.fatal "boom") 1 = AttemptResult.fatal "boom"
  ∧ Ev.attemptEv 0 1 ∈ (singlePoll (fun _ => AttemptResult.fatal "boom") 300 0 0
        (fun _ => 0) 5 0).1
  ∧ (singlePoll (fun _ => AttemptResult.fatal "boom") 300 0 0 (fun _ => 0) 5 0).2
        = RunRes.fatalRaised "boom"
  ∧ (singlePoll (fun _ => AttemptResult.fatal "boom") 300 0 0 (fun _ => 0) 5 0).1.getLast?
        = some (Ev.attemptEv 0 1))
  ∧ ((fun _ _ : Nat => AttemptResult.fatal "boom") 0 1 = AttemptResult.fatal "boom"
  ∧ Ev.attemptEv 0 1 ∈ (coordLoop (fun _ _ => AttemptResult.fatal "boom") 300 0 0
        (fun _ => 0) 3 0 [0, 1] (fun _ => 0)).1
  ∧ (coordLoop (fun _ _ => AttemptResult.fatal "boom") 300 0 0 (fun _ => 0) 3 0 [0, 1]
        (fun _ => 0)).2 = RunRes.fatalRaised "boom"
  ∧ (coordLoop (fun _ _ => AttemptResult.fatal "boom") 300 0 0 (fun _ => 0) 3 0 [0, 1]
        (fun _ => 0)).1.getLast? = some (Ev.attemptEv 0 1)) :=
  ⟨⟨rfl, by decide,
    (claim_only_availability_is_retried.1 (fun _ => AttemptResult.fatal "boom") 300 0 0
      (fun _ => 0) 5 0 1 "boom" rfl (by decide)).1,
    (claim_only_availability_is_retried.1 (fun _ => AttemptResult.fatal "boom") 300 0 0
      (fun _ => 0) 5 0 1 "boom" rfl (by decide)).2⟩,
   ⟨rfl, by decide,
    (claim_only_availability_is_retried.2 (fun _ _ => AttemptResult.fatal "boom") 300 0 0
      (fun _ => 0) 3 0 [0, 1] (fun _ => 0) 0 1 "boom" rfl (by decide)).1,
    (claim_only_availability_is_retried.2 (fun _ _ => AttemptResult.fatal "boom") 300 0 0
      (fun _ => 0) 3 0 [0, 1] (fun _ => 0) 0 1 "boom" rfl (by decide)).2⟩⟩

/-- C9: coordinator cycle invariants. (1) In a cycle that does not abort,
every request of the start-of-cycle pending snapshot is attempted exactly
once, in order; (2) such a cycle with work remaining is followed by exactly
one shared sleep before the next cycle's events; (3) a request whose
attempt succeeds is removed from the pending set; (4) a request not in the
pending set is never attempted in the remaining run — so completed
requests are not attempted in any later cycle; (5) exhaustion is decided
by the cycle counter against the shared max-attempts ceiling. -/
theorem claim_coordinator_cycle_invariants :
    (∀ (outcome : Nat → Nat → AttemptResult) (m : Int) (cycle : Nat)
        (snap pending : List Nat) (counts : Nat → Nat), snap.Nodup →
      (runCycleAux outcome m cycle snap pending counts).abort = none →
      (runCycleAux outcome m cycle snap pending counts).evs
        = snap.map (fun i => Ev.attemptEv i (counts i + 1)))
  ∧ (∀ (outcome : Nat → Nat → AttemptResult) (i j m : Int) (draw : Nat → Int)
        (fuel cycle : Nat) (pending : List Nat) (counts : Nat → Nat),
      pending ≠ [] →
      (runCycleAux outcome m (cycle + 1) pending pending counts).abort = none →
      (runCycleAux outcome m (cycle + 1) pending pending counts).pending ≠ [] →
      coordLoop outcome i j m draw (fuel + 1) cycle pending counts
        = ((runCycleAux outcome m (cycle + 1) pending pending counts).evs
            ++ Ev.sleepEv (i + if j ≠ 0 then draw (cycle + 1) else 0)
              :: (coordLoop outcome i j m draw fuel (cycle + 1)
                  (runCycleAux outcome m (cycle + 1) pending pending counts).pending
                  (runCycleAux outcome m (cycle + 1) pending pending counts).counts).1,
           (coordLoop outcome i j m draw fuel (cycle + 1)
              (runCycleAux outcome m (cycle + 1) pending pending counts).pending
              (runCycleAux outcome m (cycle + 1) pending pending counts).counts).2))
  ∧ (∀ (outcome : Nat → Nat → AttemptResult) (m : Int) (cycle idx : Nat)
        (snap pending : List Nat) (counts : Nat → Nat),
      snap.Nodup → pending.Nodup → idx ∈ snap →
      outcome idx (counts idx + 1) = AttemptResult.success →
      (runCycleAux outcome m cycle snap pending counts).abort = none →
      idx ∉ (runCycleAux outcome m cycle snap pending counts).pending)
  ∧ (∀ (outcome : Nat → Nat → AttemptResult) (i j m : Int) (draw : Nat → Int)
        (a b fuel cycle : Nat) (pending : List Nat) (counts : Nat → Nat),
      a ∉ pending →
      Ev.attemptEv a b ∉ (coordLoop outcome i j m draw fuel cycle pending counts).1)
  ∧ (∀ (outcome : Nat → Nat → AttemptResult) (m : Int) (cycle : Nat) (msg : String)
        (snap pending : List Nat) (counts : Nat → Nat),
      (runCycleAux outcome m cycle snap pending counts).abort
          = some (CyAbort.availRaise msg) →
      m ≠ 0 ∧ ((cycle : Nat) : Int) ≥ m) :=
  ⟨fun outcome m cycle snap pending counts hnd hab =>
      runCycleAux_evs_of_no_abort outcome m cycle snap pending counts hnd hab,
   fun outcome i j m draw fuel cycle pending counts hp hab hp2 =>
      coordLoop_cycle_then_sleep outcome i j m draw fuel cycle pending counts hp hab hp2,
   fun outcome m cycle idx snap pending counts hnd hpnd hmem hout hab =>
      runCycleAux_success_removed outcome m cycle idx snap pending counts hnd hpnd
        hmem hout hab,
   fun outcome i j m draw a b fuel cycle pending counts hnp =>
      coordLoop_no_attempt_of_not_pending outcome i j m draw a b fuel cycle pending
        counts hnp,
   fun outcome m cycle msg snap pending counts hab =>
      runCycleAux_exhaust_needs_cycle outcome m cycle msg snap pending counts hab⟩

theorem claim_coordinator_cycle_invariants_witness :
    (([0, 1] : List Nat).Nodup
  ∧ (runCycleAux (fun _ _ => AttemptResult.availabilityNotFound "full") 0 1 [0, 1] [0, 1]
        (fun _ => 0)).abort = none
  ∧ (runCycleAux (fun _ _ => AttemptResult.availabilityNotFound "full") 0 1 [0, 1] [0, 1]
        (fun _ => 0)).evs
      = ([0, 1] : List Nat).map (fun i => Ev.attemptEv i ((fun _ : Nat => 0) i + 1)))
  ∧ ((fun _ _ : Nat => AttemptResult.success) 0 ((fun _ : Nat => 0) 0 + 1)
        = AttemptResult.success
  ∧ (runCycleAux (fun _ _ => AttemptResult.success) 0 1 [0, 1] [0, 1]
        (fun _ => 0)).abort = none
  ∧ (0 : Nat) ∉ (runCycleAux (fun _ _ => AttemptResult.success) 0 1 [0, 1] [0, 1]
        (fun _ => 0)).pending)
  ∧ ((runCycleAux (fun _ _ => AttemptResult.availabilityNotFound "full") 2 3 [0] [0]
        (fun _ => 0)).abort = some (CyAbort.availRaise "full")
  ∧ (2 : Int) ≠ 0 ∧ ((3 : Nat) : Int) ≥ 2) :=
  ⟨⟨by decide, by decide,
    claim_coordinator_cycle_invariants.1
      (fun _ _ => AttemptResult.availabilityNotFound "full") 0 1 [0, 1] [0, 1]
      (fun _ => 0) (by decide) (by decide)⟩,
   ⟨rfl, by decide,
    claim_coordinator_cycle_invariants.2.2.1 (fun _ _ => AttemptResult.success) 0 1 0
      [0, 1] [0, 1] (fun _ => 0) (by decide) (by decide) (by decide) rfl (by decide)⟩,
   ⟨by decide,
    claim_coordinator_cycle_invariants.2.2.2.2
      (fun _ _ => AttemptResult.availabilityNotFound "full") 2 3 "full" [0] [0]
      (fun _ => 0) (by decide)⟩⟩

/-- C6 counterexample: when the global `--poll` flag is passed, two
simultaneously-polled requests with different `poll_interval_seconds`
(300 vs 600) produce no configuration error at all —
`resolve_poll_settings` returns the CLI-wide settings unchecked and both
requests are then attempted. -/
theorem claim_poll_mismatch_counterexample :
    resolve_poll_settings
        [⟨"Hut A", "2026-02-01", "2026-02-03", false, false, true, 300, 0, 0⟩,
         ⟨"Hut B", "2026-03-01", "2026-03-03", false, false, true, 600, 0, 0⟩]
        (pollFlags
          [⟨"Hut A", "2026-02-01", "2026-02-03", false, false, true, 300, 0, 0⟩,
           ⟨"Hut B", "2026-03-01", "2026-03-03", false, false, true, 600, 0, 0⟩]
          ⟨true, false, false, 120, 0, 0⟩)
        ⟨true, false, false, 120, 0, 0⟩
      = Except.ok (some (120, 0, 0))
  ∧ (mainRun
        [⟨"Hut A", "2026-02-01", "2026-02-03", false, false, true, 300, 0, 0⟩,
         ⟨"Hut B", "2026-03-01", "2026-03-03", false, false, true, 600, 0, 0⟩]
        ⟨true, false, false, 120, 0, 0⟩ (fun _ _ => AttemptResult.success)
        (fun _ => 0) 5).1
      = [Ev.attemptEv 0 1, Ev.attemptEv 1 1] := by
  exact ⟨rfl, rfl⟩

/-- C6 (amended): when the global `--poll` flag is not passed, two or more
simultaneously-polled requests with pairwise-unequal poll settings
(interval, jitter, or max attempts) make `resolve_poll_settings` raise a
`ValueError` during startup resolution, and `main` aborts with that
configuration error before any attempt — the run's trace is empty.  With
`--poll`, the CLI-wide settings override the per-config ones and no
consistency check occurs. -/
theorem claim_poll_mismatch_fails_fast
    (configs : List Config) (args : Args) (outcome : Nat → Nat → AttemptResult)
    (draw : Nat → Int) (fuel : Nat)
    (hpoll : args.poll = false) (c1 c2 : Config)
    (h1 : c1 ∈ polledConfigs configs (pollFlags configs args))
    (h2 : c2 ∈ polledConfigs configs (pollFlags configs args))
    (hne : c1.poll_interval_seconds ≠ c2.poll_interval_seconds
         ∨ c1.poll_jitter_seconds ≠ c2.poll_jitter_seconds
         ∨ c1.poll_max_attempts ≠ c2.poll_max_attempts) :
    resolve_poll_settings configs (pollFlags configs args) args
      = Except.error "Multiple configs with polling require matching poll settings or pass poll with global settings."
  ∧ mainRun configs args outcome draw fuel
      = ([], MainRes.configError "Multiple configs with polling require matching poll settings or pass poll with global settings.") := by
  have hmemi : c1.poll_interval_seconds ∈ ((polledConfigs configs
      (pollFlags configs args)).map (fun c => c.poll_interval_seconds)).dedup :=
    List.mem_dedup.mpr (List.mem_map_of_mem _ h1)
  have hne1 : ((polledConfigs configs (pollFlags configs args)).map
      (fun c => c.poll_interval_seconds)).dedup ≠ [] :=
    List.ne_nil_of_mem hmemi
  have hlt : 1 < ((polledConfigs configs (pollFlags configs args)).map
        (fun c => c.poll_interval_seconds)).dedup.length
      ∨ 1 < ((polledConfigs configs (pollFlags configs args)).map
        (fun c => c.poll_jitter_seconds)).dedup.length
      ∨ 1 < ((polledConfigs configs (pollFlags configs args)).map
        (fun c => c.poll_max_attempts)).dedup.length := by
    rcases hne with h | h | h
    · exact Or.inl (one_lt_length_of_two_mem hmemi
        (List.mem_dedup.mpr (List.mem_map_of_mem _ h2)) h)
    · exact Or.inr (Or.inl (one_lt_length_of_two_mem
        (List.mem_dedup.mpr (List.mem_map_of_mem _ h1))
        (List.mem_dedup.mpr (List.mem_map_of_mem _ h2)) h))
    · exact Or.inr (Or.inr (one_lt_length_of_two_mem
        (List.mem_dedup.mpr (List.mem_map_of_mem _ h1))
        (List.mem_dedup.mpr (List.mem_map_of_mem _ h2)) h))
  have herr : resolve_poll_settings configs (pollFlags configs args) args
      = Except.error "Multiple configs with polling require matching poll settings or pass poll with global settings." := by
    rw [resolve_poll_settings, if_neg (by simp [hpoll])]
    rw [if_neg hne1, if_pos hlt]
  refine ⟨herr, ?_⟩
  rw [mainRun, herr]

def cfgMismatchA : Config :=
  ⟨"Hut A", "2026-02-01", "2026-02-03", false, false, true, 300, 0, 0⟩

def cfgMismatchB : Config :=
  ⟨"Hut B", "2026-03-01", "2026-03-03", false, false, true, 600, 0, 0⟩

def argsNoPollW : Args := ⟨false, false, false, 300, 0, 0⟩

theorem claim_poll_mismatch_fails_fast_witness :
    (argsNoPollW.poll = false
  ∧ cfgMismatchA ∈ polledConfigs [cfgMismatchA, cfgMismatchB]
      (pollFlags [cfgMismatchA, cfgMismatchB] argsNoPollW)
  ∧ cfgMismatchB ∈ polledConfigs [cfgMismatchA, cfgMismatchB]
      (pollFlags [cfgMismatchA, cfgMismatchB] argsNoPollW)
  ∧ cfgMismatchA.poll_interval_seconds ≠ cfgMismatchB.poll_interval_seconds)
  ∧ (resolve_poll_settings [cfgMismatchA, cfgMismatchB]
        (pollFlags [cfgMismatchA, cfgMismatchB] argsNoPollW) argsNoPollW
      = Except.error "Multiple configs with polling require matching poll settings or pass poll with global settings."
  ∧ mainRun [cfgMismatchA, cfgMismatchB] argsNoPollW
        (fun _ _ => AttemptResult.success) (fun _ => 0) 3
      = ([], MainRes.configError "Multiple configs with polling require matching poll settings or pass poll with global settings.")) :=
  ⟨⟨rfl, by decide, by decide, by decide⟩,
   claim_poll_mismatch_fails_fast [cfgMismatchA, cfgMismatchB] argsNoPollW
     (fun _ _ => AttemptResult.success) (fun _ => 0) 3 rfl cfgMismatchA cfgMismatchB
     (by decide) (by decide) (Or.inl (by decide))⟩

/-- C7 counterexample: exactly one option renders, but it neither equals
the typed name nor contains it case-insensitively, and hut selection
raises the ambiguity error instead of selecting that sole option. -/
theorem claim_hut_selection_counterexample :
    (["Foo"] : List String).length = 1
  ∧ choose_hut_option "Bar" (some ["Foo"]) "Bar"
      = Except.error "Ambiguous hut selection" :=
  ⟨rfl, rfl⟩

/-- C7 (amended): after typing the hut name, if exactly one rendered
option matches the name exactly (case-sensitively) it is selected; failing
that, if exactly one option matches by case-insensitive substring it is
selected; if the option list never renders, or renders empty, the typed
name is accepted as a tentative match exactly when the search input still
holds a non-empty value (otherwise a no-options error); in every other
case — including a single rendered option that does not match — the
selection fails as ambiguous rather than guessing. -/
theorem claim_hut_selection_characterization (hutName inputValue t : String)
    (optionTexts : List String) :
    (optionTexts.filter (fun s => s = hutName) = [t] →
      choose_hut_option hutName (some optionTexts) inputValue
        = Except.ok (HutChoice.selected t))
  ∧ ((optionTexts.filter (fun s => s = hutName)).length ≠ 1 →
      optionTexts.filter (fun s => pyIn (lowerStr hutName) (lowerStr s)) = [t] →
      choose_hut_option hutName (some optionTexts) inputValue
        = Except.ok (HutChoice.selected t))
  ∧ (optionTexts ≠ [] →
      (optionTexts.filter (fun s => s = hutName)).length ≠ 1 →
      (optionTexts.filter (fun s => pyIn (lowerStr hutName) (lowerStr s))).length ≠ 1 →
      choose_hut_option hutName (some optionTexts) inputValue
        = Except.error "Ambiguous hut selection")
  ∧ (pyStrip inputValue ≠ "" →
      choose_hut_option hutName none inputValue
        = Except.ok (HutChoice.tentative hutName)
    ∧ choose_hut_option hutName (some []) inputValue
        = Except.ok (HutChoice.tentative hutName))
  ∧ (pyStrip inputValue = "" →
      choose_hut_option hutName none inputValue
        = Except.error "No hut options available after search"
    ∧ choose_hut_option hutName (some []) inputValue
        = Except.error "No hut options available after search") := by
  refine ⟨?_, ?_, ?_, ?_, ?_⟩
  · intro hf
    have hne : optionTexts ≠ [] := by
      intro h
      rw [h] at hf
      simp at hf
    simp only [choose_hut_option, if_neg hne, hf]
  · intro hlen hf
    have hne : optionTexts ≠ [] := by
      intro h
      rw [h] at hf
      simp at hf
    rcases hfe : optionTexts.filter (fun s => s = hutName) with _ | ⟨x, _ | ⟨y, rest⟩⟩
    · simp only [choose_hut_option, if_neg hne, hfe, hf]
    · exact absurd (by rw [hfe]; rfl) hlen
    · simp only [choose_hut_option, if_neg hne, hfe, hf]
  · intro hne hlen1 hlen2
    rcases hfe : optionTexts.filter (fun s => s = hutName) with _ | ⟨x, _ | ⟨y, rest⟩⟩
    · rcases hfc : optionTexts.filter (fun s => pyIn (lowerStr hutName) (lowerStr s))
        with _ | ⟨x2, _ | ⟨y2, rest2⟩⟩
      · simp only [choose_hut_option, if_neg hne, hfe, hfc]
      · exact absurd (by rw [hfc]; rfl) hlen2
      · simp only [choose_hut_option, if_neg hne, hfe, hfc]
    · exact absurd (by rw [hfe]; rfl) hlen1
    · rcases hfc : optionTexts.filter (fun s => pyIn (lowerStr hutName) (lowerStr s))
        with _ | ⟨x2, _ | ⟨y2, rest2⟩⟩
      · simp only [choose_hut_option, if_neg hne, hfe, hfc]
      · exact absurd (by rw [hfc]; rfl) hlen2
      · simp only [choose_hut_option, if_neg hne, hfe, hfc]
  · intro hin
    exact ⟨by simp [choose_hut_option, hin], by simp [choose_hut_option, hin]⟩
  · intro hin
    exact ⟨by simp [choose_hut_option, hin], by simp [choose_hut_option, hin]⟩

theorem claim_hut_selection_characterization_witness :
    ((["Rifugio Gnifetti", "Altro"] : List String).filter
        (fun s => s = "Rifugio Gnifetti") = ["Rifugio Gnifetti"]
  ∧ choose_hut_option "Rifugio Gnifetti" (some ["Rifugio Gnifetti", "Altro"]) "Rifugio Gnifetti"
      = Except.ok (HutChoice.selected "Rifugio Gnifetti"))
  ∧ (pyStrip "Rifugio Gnifetti" ≠ ""
  ∧ choose_hut_option "Rifugio Gnifetti" none "Rifugio Gnifetti"
      = Except.ok (HutChoice.tentative "Rifugio Gnifetti")) :=
  ⟨⟨by decide,
    (claim_hut_selection_characterization "Rifugio Gnifetti" "Rifugio Gnifetti"
      "Rifugio Gnifetti" ["Rifugio Gnifetti", "Altro"]).1 (by decide)⟩,
   ⟨by decide,
    ((claim_hut_selection_characterization "Rifugio Gnifetti" "Rifugio Gnifetti"
      "Rifugio Gnifetti" ["Rifugio Gnifetti", "Altro"]).2.2.2.1 (by decide)).1⟩⟩

/-- C8 counterexample: the claim says the disabled-field comparison is
case-insensitive for every field, but `fill_input_or_validate` (used for
the party-size fields) compares with Python's case-sensitive `in`: on a
disabled field holding "A" with requested value "a" the case-insensitive
containment holds, yet the call raises the mismatch error. -/
theorem claim_fill_or_validate_counterexample :
    pyIn (lowerStr "a") (lowerStr (pyStrip "A")) = true
  ∧ fill_input_or_validate true false "A" "a"
      = Except.error "Field is disabled and does not match value" :=
  ⟨rfl, rfl⟩

/-- C8 (amended): on an enabled field both fill operations write the
requested value.  On a disabled field, `fill_input_or_validate` (applied
to the party-size fields) succeeds exactly when the stripped current
content contains the requested value compared case-SENSITIVELY, raising
the mismatch error otherwise; the personal-data variant
`fill_personal_value` succeeds exactly when the lowered stripped content
contains the lowered value (or the value is empty), raising its mismatch
error otherwise. -/
theorem claim_fill_or_validate_characterization (current value : String) :
    fill_input_or_validate true true current value
        = Except.ok (FieldAction.wrote value)
  ∧ fill_personal_value true true current (some value)
        = Except.ok (FieldAction.wrote value)
  ∧ fill_input_or_validate true false current value
        = (if pyIn value (pyStrip current) then Except.ok FieldAction.validated
           else Except.error "Field is disabled and does not match value")
  ∧ fill_personal_value true false current (some value)
        = (if value = "" ∨ pyIn (lowerStr value) (lowerStr (pyStrip current)) = true
           then Except.ok FieldAction.validated
           else Except.error "Field is disabled and does not match config value") := by
  refine ⟨rfl, rfl, ?_, ?_⟩
  · by_cases h : pyIn value (pyStrip current) = true
    · simp [fill_input_or_validate, h]
    · simp only [Bool.not_eq_true] at h
      simp [fill_input_or_validate, h]
  · by_cases hv : value = ""
    · simp [fill_personal_value, hv]
    · by_cases h : pyIn (lowerStr value) (lowerStr (pyStrip current)) = true
      · simp [fill_personal_value, hv, h]
      · simp only [Bool.not_eq_true] at h
        simp [fill_personal_value, hv, h]

/-- C10: when `auto_poll_if_full` is absent from the config,
`load_config` sets it to the negation of `allow_waitlist` (polling on
full is on by default exactly when waitlisting is not allowed), and an
explicit boolean `auto_poll_if_full` in the config always overrides this
default. -/
theorem claim_auto_poll_default (aw : Option YVal) (b v : Bool)
    (hb : optional_bool aw false = Except.ok b) :
    load_config_poll_fields ⟨aw, none⟩ = Except.ok (b, !b)
  ∧ load_config_poll_fields ⟨aw, some (YVal.b v)⟩ = Except.ok (b, v) := by
  refine ⟨?_, ?_⟩
  · simp only [load_config_poll_fields, hb]
  · simp only [load_config_poll_fields, hb]
    simp [optional_bool]

theorem claim_auto_poll_default_witness :
    (optional_bool (some (YVal.b true)) false = Except.ok true)
  ∧ (load_config_poll_fields ⟨some (YVal.b true), none⟩ = Except.ok (true, !true)
  ∧ load_config_poll_fields ⟨some (YVal.b true), some (YVal.b false)⟩
      = Except.ok (true, false)) :=
  ⟨rfl, claim_auto_poll_default (some (YVal.b true)) true false rfl⟩

def envW : AttemptEnv :=
  { preErr := none, pickerErr := none, calendarStart := (2026, 2),
    cellFound := fun _ => true, dateDisabled := fun _ => false,
    rangeInputFound := true,
    rangeReads := fun _ => "01.02.2026 - 03.02.2026",
    partySizeErr := none, availChain := AvailChain.advanced,
    overnightErr := none, personalErr := none, consentErr := none,
    submitFound := true, submitDisabled := false }

def envDisW : AttemptEnv := { envW with dateDisabled := fun s => s == "01.02.2026" }

def cfgW : Config :=
  ⟨"Hut A", "2026-02-01", "2026-02-03", false, false, false, 300, 0, 0⟩

def argsDryW : Args := ⟨false, true, false, 300, 0, 0⟩

theorem run_attempt_submit_gate_witness :
    (argsDryW.dry_run = true
  ∧ AttemptEv.consentStep ∈ (run_attempt cfgW argsDryW envW).1
  ∧ (run_attempt cfgW argsDryW envW).2 = Except.ok AttemptOutcome.dryRunStopped)
  ∧ (argsDryW.confirm_submit = false
  ∧ AttemptEv.submitClick ∉ (run_attempt cfgW argsDryW envW).1) :=
  ⟨⟨rfl, by decide, (run_attempt_submit_gate cfgW argsDryW envW).2.1 rfl (by decide)⟩,
   ⟨rfl, (run_attempt_submit_gate cfgW argsDryW envW).2.2 rfl⟩⟩

theorem run_attempt_disabled_date_cell_witness :
    (envDisW.preErr = none ∧ envDisW.pickerErr = none
  ∧ parse_date_ymd cfgW.check_in = some (2026, 2, 1)
  ∧ (ensure_calendar_month (2026, 2) 24 envDisW.calendarStart).2 = Except.ok ()
  ∧ envDisW.cellFound (format_date_for_ui cfgW.check_in) = true
  ∧ envDisW.dateDisabled (format_date_for_ui cfgW.check_in) = true
  ∧ cfgW.allow_alternative_dates = false)
  ∧ ((run_attempt cfgW argsDryW envDisW).2
      = Except.error (BErr.avail ("Date not available: "
          ++ format_date_for_ui cfgW.check_in))
  ∧ AttemptEv.partySizeStep ∉ (run_attempt cfgW argsDryW envDisW).1) :=
  ⟨⟨rfl, rfl, by decide, rfl, by decide, by decide, rfl⟩,
   (run_attempt_disabled_date_cell cfgW argsDryW envDisW rfl rfl).1 2026 2 1
     (by decide) rfl (by decide) (by decide)⟩

end HutBot
